import Mathlib

/-!
# Poster generator: a shallow embedding and its verified properties

The development embeds `internal/poster/generator.go` (`Generate`, `drawText`,
`fetchImage`) and `cmd/lambda/main.go` (`handler`, `errorResponse`).

* Go `int` is a 64-bit two's complement integer: every `+` and `-` of the
  embedded code is followed by `wrapInt`; `/` is `Int.tdiv` (truncation
  toward zero).  `fixed.Int26_6` is a 32-bit integer (`wrapInt32`).
* Go objects reached through pointers (`image.Image` values, `*image.RGBA`,
  `*truetype.Font`) live in an explicit heap; an address is an index.
* A run either returns, panics, or blocks forever (`Exec`).
* Every call that leaves the function body is recorded, with its arguments,
  in a ghost call log (`State.trace`).
* Library routines (`image`, `image/draw`, `net/http`, `font`, `freetype`)
  are modelled after their documented behaviour; routines whose
  output is data-dependent (image decoding, resampling, glyph rasterisation,
  PNG encoding, JSON) are parameters of the model.
-/

namespace Poster

/-! ## Machine integers -/

/-- Two's complement reduction to Go's 64-bit `int`. -/
def wrapInt (x : Int) : Int :=
  (x + 9223372036854775808) % 18446744073709551616 - 9223372036854775808

/-- Two's complement reduction to `int32` (the carrier of `fixed.Int26_6`). -/
def wrapInt32 (x : Int) : Int :=
  (x + 2147483648) % 4294967296 - 2147483648

/-- Reduction to `uint32`. -/
def u32 (n : Nat) : Nat := n % 4294967296

/-- Reduction to `uint8`. -/
def u8 (n : Nat) : Nat := n % 256

/-! ## `image` geometry -/

/-- Go `image.Point`. -/
structure Point where
  X : Int
  Y : Int
deriving DecidableEq, Repr

/-- Go `image.Rectangle`. -/
structure Rectangle where
  Min : Point
  Max : Point
deriving DecidableEq, Repr

/-- Go `Point.Sub`. -/
def Point.Sub (p q : Point) : Point :=
  ⟨wrapInt (p.X - q.X), wrapInt (p.Y - q.Y)⟩

/-- Go `Point.In`. -/
def Point.In (p : Point) (r : Rectangle) : Bool :=
  decide (r.Min.X ≤ p.X) && decide (p.X < r.Max.X) &&
  decide (r.Min.Y ≤ p.Y) && decide (p.Y < r.Max.Y)

/-- Go `Rectangle.Dx`. -/
def Rectangle.Dx (r : Rectangle) : Int := wrapInt (r.Max.X - r.Min.X)

/-- Go `Rectangle.Dy`. -/
def Rectangle.Dy (r : Rectangle) : Int := wrapInt (r.Max.Y - r.Min.Y)

/-- Go `Rectangle.Empty`. -/
def Rectangle.Empty (r : Rectangle) : Bool :=
  decide (r.Min.X ≥ r.Max.X) || decide (r.Min.Y ≥ r.Max.Y)

/-- Go `Rectangle.Add`. -/
def Rectangle.Add (r : Rectangle) (p : Point) : Rectangle :=
  ⟨⟨wrapInt (r.Min.X + p.X), wrapInt (r.Min.Y + p.Y)⟩,
   ⟨wrapInt (r.Max.X + p.X), wrapInt (r.Max.Y + p.Y)⟩⟩

/-- Go `image.ZR`, the zero rectangle. -/
def ZR : Rectangle := ⟨⟨0, 0⟩, ⟨0, 0⟩⟩

/-- Go `Rectangle.Intersect`: the four conditional assignments, then the
emptiness test. -/
def Rectangle.Intersect (r s : Rectangle) : Rectangle :=
  let minX := if r.Min.X < s.Min.X then s.Min.X else r.Min.X
  let minY := if r.Min.Y < s.Min.Y then s.Min.Y else r.Min.Y
  let maxX := if r.Max.X > s.Max.X then s.Max.X else r.Max.X
  let maxY := if r.Max.Y > s.Max.Y then s.Max.Y else r.Max.Y
  let r1 : Rectangle := ⟨⟨minX, minY⟩, ⟨maxX, maxY⟩⟩
  if r1.Empty then ZR else r1

/-- Go `image.Rect`: the rectangle with the coordinates put in order. -/
def Rect (x0 y0 x1 y1 : Int) : Rectangle :=
  let xa := if x0 > x1 then x1 else x0
  let xb := if x0 > x1 then x0 else x1
  let ya := if y0 > y1 then y1 else y0
  let yb := if y0 > y1 then y0 else y1
  ⟨⟨xa, ya⟩, ⟨xb, yb⟩⟩

/-! ## Colours and rasters -/

/-- What `color.Color.RGBA()` returns: alpha-premultiplied channels, each a
`uint32` that a well-formed colour keeps within `[0, 0xffff]`. -/
structure Color where
  R : Nat
  G : Nat
  B : Nat
  A : Nat
deriving DecidableEq, Repr

/-- Go `color.RGBA`: four `uint8` channels. -/
structure ColorRGBA where
  R : Nat
  G : Nat
  B : Nat
  A : Nat
deriving DecidableEq, Repr

/-- A colour honours the `color.Color` contract: 16-bit channels, none
above alpha. -/
def Color.Valid (c : Color) : Prop :=
  c.A ≤ 65535 ∧ c.R ≤ c.A ∧ c.G ≤ c.A ∧ c.B ≤ c.A

instance (c : Color) : Decidable c.Valid := by
  unfold Color.Valid; infer_instance

/-- Go `color.RGBA.RGBA()`: each channel `r` becomes `r | r << 8`. -/
def ColorRGBA.RGBA (c : ColorRGBA) : Color :=
  ⟨c.R ||| (c.R <<< 8), c.G ||| (c.G <<< 8), c.B ||| (c.B <<< 8), c.A ||| (c.A <<< 8)⟩

/-- Go `color.RGBAModel.Convert`: `uint8(r >> 8)` on each channel. -/
def toRGBA (c : Color) : ColorRGBA :=
  ⟨u8 (c.R / 256), u8 (c.G / 256), u8 (c.B / 256), u8 (c.A / 256)⟩

/-- A value of the interface `image.Image`, seen through `Bounds()` and
`At(x, y).RGBA()`. -/
structure Image where
  Bounds : Rectangle
  At : Int → Int → Color

/-- Go `image.RGBA`: `Rect` and the pixel store (`Pix` with `Stride`, read
here by coordinates). -/
structure ImageRGBA where
  Rect : Rectangle
  Pix : Int → Int → ColorRGBA

/-- Go `(*image.RGBA).RGBAAt`: the zero colour outside `Rect`. -/
def ImageRGBA.RGBAAt (p : ImageRGBA) (x y : Int) : ColorRGBA :=
  if (Point.mk x y).In p.Rect then p.Pix x y else ⟨0, 0, 0, 0⟩

/-- An `*image.RGBA` used as an `image.Image`. -/
def ImageRGBA.toImage (p : ImageRGBA) : Image :=
  ⟨p.Rect, fun x y => (p.RGBAAt x y).RGBA⟩

/-- Go `mul3NonNeg(4, w, h)` of `image.pixelBufferLength`: the byte length of
the pixel buffer, or `none` where Go returns `-1`. -/
def pixelBufferLength (w h : Int) : Option Int :=
  if w < 0 ∨ h < 0 then none
  else if 4 * w ≥ 18446744073709551616 then none
  else if 4 * w * h ≥ 18446744073709551616 then none
  else if 4 * w * h ≥ 9223372036854775808 then none
  else some (4 * w * h)

/-- Go `image.NewRGBA`: a raster of transparent black with bounds `r`;
`none` is the panic on huge or negative dimensions. -/
def NewRGBA (r : Rectangle) : Option ImageRGBA :=
  match pixelBufferLength r.Dx r.Dy with
  | none => none
  | some _ => some ⟨r, fun _ _ => ⟨0, 0, 0, 0⟩⟩

/-! ## `image/draw` -/

/-- Go `draw.Op`. -/
inductive Op where
  | Over
  | Src
deriving DecidableEq, Repr

/-- Go `draw.clip` without a mask: the rectangle restricted to the
destination and to the translated source, and the source point moved by the
same amount. -/
def clip (dstBounds : Rectangle) (r : Rectangle) (srcBounds : Rectangle) (sp : Point) :
    Rectangle × Point :=
  let orig := r.Min
  let r1 := r.Intersect dstBounds
  let r2 := r1.Intersect (srcBounds.Add (orig.Sub sp))
  let dx := wrapInt (r2.Min.X - orig.X)
  let dy := wrapInt (r2.Min.Y - orig.Y)
  if dx = 0 ∧ dy = 0 then (r2, sp)
  else (r2, ⟨wrapInt (sp.X + dx), wrapInt (sp.Y + dy)⟩)

/-- One channel of the `Over` branch of `draw.drawRGBA` with no mask
(`ma = m = 0xffff`): `uint8((dr*a + sr*ma) / m >> 8)` where
`a = (m - sa*ma/m) * 0x101`, all in `uint32`. -/
def overChannel (dr sr sa : Nat) : Nat :=
  let m := 65535
  let a := u32 (u32 (m + 4294967296 - u32 (sa * m) / m) * 257)
  u8 (u32 (u32 (dr * a) + u32 (sr * m)) / m / 256)

/-- One channel of the `Src` branch: `uint8(sr * ma / m >> 8)`. -/
def srcChannel (sr : Nat) : Nat :=
  let m := 65535
  u8 (u32 (sr * m) / m / 256)

/-- The pixel that `draw.Draw` stores for destination pixel `d` and source
colour `s`. -/
def drawPixel (op : Op) (d : ColorRGBA) (s : Color) : ColorRGBA :=
  match op with
  | Op.Over =>
    ⟨overChannel d.R s.R s.A, overChannel d.G s.G s.A,
     overChannel d.B s.B s.A, overChannel d.A s.A s.A⟩
  | Op.Src => ⟨srcChannel s.R, srcChannel s.G, srcChannel s.B, srcChannel s.A⟩

/-- Go `draw.Draw(dst, r, src, sp, op)` for an `*image.RGBA` destination:
clip, then for each point of the clipped rectangle combine the destination
pixel with the source pixel at the same offset from `sp`. -/
def Draw (dst : ImageRGBA) (r : Rectangle) (src : Image) (sp : Point) (op : Op) :
    ImageRGBA :=
  let c := clip dst.Rect r src.Bounds sp
  if c.1.Empty then dst
  else
    { dst with
      Pix := fun x y =>
        if (Point.mk x y).In c.1 then
          drawPixel op (dst.Pix x y)
            (src.At (wrapInt (c.2.X + wrapInt (x - c.1.Min.X)))
                    (wrapInt (c.2.Y + wrapInt (y - c.1.Min.Y))))
        else dst.Pix x y }

/-! ## Fonts (`golang.org/x/image/font`, `freetype/truetype`) -/

/-- Go `fixed.Point26_6`: two `fixed.Int26_6` coordinates. -/
structure Point26_6 where
  X : Int
  Y : Int
deriving DecidableEq, Repr

/-- Go `font.Hinting`. -/
inductive Hinting where
  | HintingNone
  | HintingVertical
  | HintingFull
deriving DecidableEq, Repr

/-- Go `truetype.Options`, the fields `drawText` sets; `Hinting` keeps its
zero value `HintingNone` there. -/
structure Options where
  Size : Nat
  DPI : Nat
  Hinting : Hinting
deriving DecidableEq, Repr

/-- The two methods of `font.Face` that `font.MeasureString` calls; advances
and kerns are `fixed.Int26_6` values (1/64 pixel). -/
structure Face where
  Kern : Char → Char → Int
  GlyphAdvance : Char → Option Int

/-- A parsed `*truetype.Font`, seen through what the program does with it:
`truetype.NewFace`, and the glyphs that `freetype` rasterises for a string
at a pen position under a resolution, size and hinting (for each pixel the
8-bit coverages of the glyph masks that reach it, in drawing order, and the
error of the first glyph that fails to load). -/
structure Font where
  NewFace : Options → Face
  Glyphs : Nat → Nat → Hinting → String → Point26_6 →
    (Int → Int → List Nat) × Option String

/-- The loop of Go `font.MeasureString`, over the runes that `range s`
yields; `prevC = none` stands for `rune(-1)`. -/
def measureLoop (f : Face) : List Char → Int → Option Char → Int
  | [], advance, _ => advance
  | c :: cs, advance, prevC =>
    let advance1 :=
      match prevC with
      | some p => wrapInt32 (advance + f.Kern p c)
      | none => advance
    match f.GlyphAdvance c with
    | none => measureLoop f cs advance1 prevC
    | some a => measureLoop f cs (wrapInt32 (advance1 + a)) (some c)

/-- Go `font.MeasureString`. -/
def MeasureString (f : Face) (s : String) : Int :=
  measureLoop f s.data 0 none

/-- Go `fixed.Int26_6.Ceil`: `int((x + 0x3f) >> 6)`. -/
def Ceil (x : Int) : Int := wrapInt32 (x + 63) / 64

/-- Go `freetype.Pt`: `fixed.Int26_6(x << 6)` on both coordinates. -/
def Pt (x y : Int) : Point26_6 :=
  ⟨wrapInt32 (wrapInt (x * 64)), wrapInt32 (wrapInt (y * 64))⟩

/-- Go `len(s)` of a string: its length in bytes. -/
def len (s : String) : Nat := s.utf8ByteSize

/-! ## Errors, bytes, base64 -/

/-- A Go `error` value. -/
inductive Error where
  | mk (msg : String)
  | status (code : Int)
  | wrap (ctx : String) (inner : Error)
deriving DecidableEq, Repr

/-- A byte. -/
abbrev Byte := Fin 256

/-- The alphabet of `base64.StdEncoding`. -/
def encodeStd : List Char :=
  "ABCDEFGHIJKLMNOPQRSTUVWXYZabcdefghijklmnopqrstuvwxyz0123456789+/".data

/-- The character of a 6-bit value. -/
def b64Char (n : Nat) : Char := encodeStd.getD n '='

/-- The 6-bit value of a character of the alphabet. -/
def b64Val (c : Char) : Option Nat :=
  let i := encodeStd.indexOf c
  if i < 64 then some i else none

/-- The characters of `base64.StdEncoding.EncodeToString`: three bytes give
four characters, and a last group of one or two bytes is padded with `=`. -/
def encodeChars : List Byte → List Char
  | [] => []
  | [a] => [b64Char (a.val / 4), b64Char (a.val % 4 * 16), '=', '=']
  | [a, b] =>
    [b64Char (a.val / 4), b64Char (a.val % 4 * 16 + b.val / 16),
     b64Char (b.val % 16 * 4), '=']
  | a :: b :: c :: rest =>
    b64Char (a.val / 4) :: b64Char (a.val % 4 * 16 + b.val / 16) ::
    b64Char (b.val % 16 * 4 + c.val / 64) :: b64Char (c.val % 64) ::
    encodeChars rest

/-- Go `base64.StdEncoding.EncodeToString`. -/
def EncodeToString (src : List Byte) : String := String.mk (encodeChars src)

/-- The inverse reading of groups of four characters. -/
def decodeChars : List Char → Option (List Byte)
  | [] => some []
  | a :: b :: c :: d :: rest =>
    match b64Val a, b64Val b with
    | some x, some y =>
      if c = '=' ∧ d = '=' ∧ rest = [] then
        some [Fin.ofNat (x * 4 + y / 16)]
      else
        match b64Val c with
        | some z =>
          if d = '=' ∧ rest = [] then
            some [Fin.ofNat (x * 4 + y / 16), Fin.ofNat (y % 16 * 16 + z / 4)]
          else
            match b64Val d with
            | some w =>
              match decodeChars rest with
              | some tl =>
                some (Fin.ofNat (x * 4 + y / 16) :: Fin.ofNat (y % 16 * 16 + z / 4) ::
                  Fin.ofNat (z % 4 * 64 + w) :: tl)
              | none => none
            | none => none
        | none => none
    | _, _ => none
  | _ => none

/-- Go `base64.StdEncoding.DecodeString` on padded input without line
breaks. -/
def DecodeString (s : String) : Option (List Byte) := decodeChars s.data

/-! ## The network (`net/http`) -/

/-- What reading a response body to its end meets: the bytes after some
time, a read error, or a peer that stops sending without closing. -/
inductive BodyRead where
  | data (elapsed : Nat) (bytes : List Byte)
  | fails (err : Error)
  | stalls

/-- Go `http.Response`, the parts `fetchImage` reads. -/
structure Response where
  StatusCode : Int
  Body : BodyRead

/-- What the remote end does with a GET of a URL: the transport fails, a
response arrives after some time, or nothing ever arrives. -/
inductive Exchange where
  | fails (err : Error)
  | answers (elapsed : Nat) (resp : Response)
  | never

/-- Go `http.Client`; `Timeout` is a `time.Duration`, and zero means no
timeout. -/
structure Client where
  Timeout : Nat
deriving DecidableEq, Repr

/-- Go `http.DefaultClient`, declared as `&Client{}`. -/
def DefaultClient : Client := ⟨0⟩

/-- The error of an exceeded `Client.Timeout`. -/
def errTimeout : Error := Error.mk "Client.Timeout exceeded"

/-- Go `(*http.Client).Get` against a remote behaviour; `none` is a call
that never returns. -/
def Client.Get (c : Client) (x : Exchange) : Option (Except Error Response) :=
  match x with
  | Exchange.fails err => some (Except.error err)
  | Exchange.answers elapsed resp =>
    if c.Timeout ≠ 0 ∧ c.Timeout ≤ elapsed then some (Except.error errTimeout)
    else some (Except.ok resp)
  | Exchange.never =>
    if c.Timeout ≠ 0 then some (Except.error errTimeout) else none

/-- Go `io.ReadAll(resp.Body)` for a response obtained through client `c`,
whose timer keeps running while the body is read; `none` is a read that
never returns. -/
def Client.ReadAll (c : Client) (b : BodyRead) : Option (Except Error (List Byte)) :=
  match b with
  | BodyRead.data elapsed bytes =>
    if c.Timeout ≠ 0 ∧ c.Timeout ≤ elapsed then some (Except.error errTimeout)
    else some (Except.ok bytes)
  | BodyRead.fails err => some (Except.error err)
  | BodyRead.stalls =>
    if c.Timeout ≠ 0 then some (Except.error errTimeout) else none

/-! ## Heap, call log and runs -/

/-- An address of a heap object. -/
abbrev Addr := Nat

/-- The objects the program holds through pointers or interface values. -/
inductive Obj where
  | image (m : Image)
  | rgba (m : ImageRGBA)
  | font (f : Font)

/-- The calls recorded in the log, each at the entry of the callee. -/
inductive Event where
  | Generate (name : String) (avatarURL : String)
  | fetchImage (url : String)
  | httpGet (url : String)
  | bodyClose
  | resize (width : Nat) (height : Nat) (img : Addr)
  | newRGBA (r : Rectangle)
  | draw (dst : Addr) (r : Rectangle) (src : Addr) (sp : Point) (op : Op)
  | drawText (img : Addr) (text : String) (y : Int)
  | drawString (dst : Addr) (text : String) (p : Point26_6)
  | pngEncode (img : Addr)
  | base64Encode
  | logPrintf
deriving DecidableEq, Repr

/-- The program state: the heap and the call log. -/
structure State where
  heap : List Obj
  trace : List Event

/-- The outcome of a run. -/
inductive Exec (α : Type) where
  | returned (a : α)
  | panicked
  | blocked

/-- A computation over the program state. -/
def M (α : Type) : Type := State → Exec (α × State)

/-- Sequencing: a panic or a block ends the run. -/
def M.bind {α β : Type} (m : M α) (f : α → M β) : M β := fun s =>
  match m s with
  | Exec.returned (a, s1) => f a s1
  | Exec.panicked => Exec.panicked
  | Exec.blocked => Exec.blocked

/-- A computation that returns at once. -/
def M.pure {α : Type} (a : α) : M α := fun s => Exec.returned (a, s)

instance : Monad M where
  pure := M.pure
  bind := M.bind

/-- Append a call to the log. -/
def emit (e : Event) : M Unit := fun s =>
  Exec.returned ((), { s with trace := s.trace ++ [e] })

/-- Allocate a fresh object; its address is the next free index. -/
def alloc (o : Obj) : M Addr := fun s =>
  Exec.returned (s.heap.length, { s with heap := s.heap ++ [o] })

/-- A runtime panic. -/
def goPanic {α : Type} : M α := fun _ => Exec.panicked

/-- A call that never returns. -/
def block {α : Type} : M α := fun _ => Exec.blocked

/-- Read an object as an `image.Image`; a dangling address or an object of
another kind is a nil dereference. -/
def loadImage (a : Addr) : M Image := fun s =>
  match s.heap[a]? with
  | some (Obj.image m) => Exec.returned (m, s)
  | some (Obj.rgba m) => Exec.returned (m.toImage, s)
  | _ => Exec.panicked

/-- Read an `*image.RGBA`. -/
def loadRGBA (a : Addr) : M ImageRGBA := fun s =>
  match s.heap[a]? with
  | some (Obj.rgba m) => Exec.returned (m, s)
  | _ => Exec.panicked

/-- Read a `*truetype.Font`. -/
def loadFont (a : Addr) : M Font := fun s =>
  match s.heap[a]? with
  | some (Obj.font f) => Exec.returned (f, s)
  | _ => Exec.panicked

/-- Overwrite the `*image.RGBA` at an address. -/
def storeRGBA (a : Addr) (m : ImageRGBA) : M Unit := fun s =>
  match s.heap[a]? with
  | some (Obj.rgba _) => Exec.returned ((), { s with heap := s.heap.set a (Obj.rgba m) })
  | _ => Exec.panicked

/-! ## The environment of a request -/

/-- The data-dependent library routines and the remote world. -/
structure Env where
  net : String → Exchange
  Decode : List Byte → Except Error Image
  Resize : Nat → Nat → Image → Image
  pngEncode : ImageRGBA → Except Error (List Byte)

/-- Go `http.Get`: a GET through `DefaultClient`. -/
def httpGet (env : Env) (url : String) : M (Except Error Response) := do
  emit (Event.httpGet url)
  match DefaultClient.Get (env.net url) with
  | none => block
  | some r => pure r

/-- Go `io.ReadAll(resp.Body)` of a response of `http.Get`. -/
def ioReadAll (resp : Response) : M (Except Error (List Byte)) :=
  match DefaultClient.ReadAll resp.Body with
  | none => block
  | some r => pure r

/-- Go `http.StatusOK`. -/
def StatusOK : Int := 200

/-! ## `internal/poster/generator.go` -/

/-- Avatar width and height in pixels. -/
def avatarSize : Nat := 150

/-- Font size for the name. -/
def fontSize : Nat := 36

/-- Resolution for font rendering. -/
def dpi : Nat := 72

/-- Go `Generator`: the background image and the font, held by reference. -/
structure Generator where
  background : Addr
  font : Addr
deriving DecidableEq, Repr

/-- Go `fetchImage`: download and decode an image from a URL.  The deferred
`resp.Body.Close()` runs on every return after a successful `http.Get`. -/
def fetchImage (env : Env) (url : String) : M (Except Error Addr) := do
  emit (Event.fetchImage url)
  let r ← httpGet env url
  match r with
  | Except.error err => pure (Except.error err)
  | Except.ok resp =>
    if resp.StatusCode ≠ StatusOK then do
      emit Event.bodyClose
      pure (Except.error (Error.status resp.StatusCode))
    else do
      let d ← ioReadAll resp
      match d with
      | Except.error err => do
        emit Event.bodyClose
        pure (Except.error err)
      | Except.ok data =>
        match env.Decode data with
        | Except.error err => do
          emit Event.bodyClose
          pure (Except.error err)
        | Except.ok img => do
          let a ← alloc (Obj.image img)
          emit Event.bodyClose
          pure (Except.ok a)

/-- Go `resize.Resize(width, height, img, resize.Lanczos3)`: the resampled
raster is a new object. -/
def resizeResize (env : Env) (width height : Nat) (img : Addr) : M Addr := do
  emit (Event.resize width height img)
  let m ← loadImage img
  alloc (Obj.image (env.Resize width height m))

/-- Go `img.Bounds()` on an `image.Image`. -/
def imageBounds (a : Addr) : M Rectangle := do
  let m ← loadImage a
  pure m.Bounds

/-- Go `image.NewRGBA(r)` as an allocation. -/
def imageNewRGBA (r : Rectangle) : M Addr := do
  emit (Event.newRGBA r)
  match NewRGBA r with
  | none => goPanic
  | some m => alloc (Obj.rgba m)

/-- Go `draw.Draw(dst, r, src, sp, op)` on heap objects: only `dst` is
written. -/
def drawDraw (dst : Addr) (r : Rectangle) (src : Addr) (sp : Point) (op : Op) : M Unit := do
  emit (Event.draw dst r src sp op)
  let d ← loadRGBA dst
  let s ← loadImage src
  storeRGBA dst (Draw d r s sp op)

/-- Go `image.White` through `RGBA()`. -/
def White : Color := ⟨65535, 65535, 65535, 65535⟩

/-- Go `freetype.Context`, the fields `drawText` sets. -/
structure Context where
  DPI : Nat
  Font : Addr
  FontSize : Nat
  Clip : Rectangle
  Dst : Addr
  Src : Color
  Hinting : Hinting

/-- One channel of `draw.DrawMask` with `Over` for a uniform source and an
8-bit glyph coverage `ma8` (the coverage is widened to 16 bits and a zero
coverage leaves the pixel alone). -/
def glyphOverChannel (dr sr sa ma8 : Nat) : Nat :=
  if ma8 = 0 then dr
  else
    let m := 65535
    let ma := ma8 ||| (ma8 <<< 8)
    let a := u32 (u32 (m + 4294967296 - u32 (sa * ma) / m) * 257)
    u8 (u32 (u32 (dr * a) + u32 (sr * ma)) / m / 256)

/-- A destination pixel after one glyph mask. -/
def glyphOver (src : Color) (d : ColorRGBA) (ma8 : Nat) : ColorRGBA :=
  ⟨glyphOverChannel d.R src.R src.A ma8, glyphOverChannel d.G src.G src.A ma8,
   glyphOverChannel d.B src.B src.A ma8, glyphOverChannel d.A src.A src.A ma8⟩

/-- The destination after the glyph masks of a string: each mask is drawn
with `draw.DrawMask(dst, clip.Intersect(glyphRect), src, ..., draw.Over)`, so
only pixels inside both the clip rectangle and the bounds of the destination
change, each by the coverages that reach it. -/
def drawGlyphs (clipRect : Rectangle) (src : Color) (d : ImageRGBA)
    (cover : Int → Int → List Nat) : ImageRGBA :=
  { d with
    Pix := fun x y =>
      if (Point.mk x y).In clipRect && (Point.mk x y).In d.Rect then
        (cover x y).foldl (glyphOver src) (d.Pix x y)
      else d.Pix x y }

/-- Go `(*freetype.Context).DrawString`: the glyphs are drawn on `c.dst` one
after the other; the glyphs before a failing one stay drawn, and the error
of the failing one is returned. -/
def DrawString (c : Context) (text : String) (p : Point26_6) : M (Option Error) := do
  emit (Event.drawString c.Dst text p)
  let f ← loadFont c.Font
  let d ← loadRGBA c.Dst
  let g := f.Glyphs c.DPI c.FontSize c.Hinting text p
  storeRGBA c.Dst (drawGlyphs c.Clip c.Src d g.1)
  pure (g.2.map Error.mk)

/-- Go `(*Generator).drawText`: draw centred text at the given Y position. -/
def drawText (g : Generator) (img : Addr) (text : String) (y : Int) : M (Option Error) := do
  emit (Event.drawText img text y)
  let dst ← loadRGBA img
  let c : Context :=
    { DPI := dpi, Font := g.font, FontSize := fontSize, Clip := dst.Rect, Dst := img,
      Src := White, Hinting := Hinting.HintingFull }
  let f ← loadFont g.font
  let opts : Options := { Size := fontSize, DPI := dpi, Hinting := Hinting.HintingNone }
  let face := f.NewFace opts
  let textWidth := Ceil (MeasureString face text)
  let x := Int.tdiv (wrapInt (dst.Rect.Dx - textWidth)) 2
  let pt := Pt x y
  DrawString c text pt

/-- Go `png.Encode(&buf, output)`. -/
def pngEncode (env : Env) (img : Addr) : M (Except Error (List Byte)) := do
  emit (Event.pngEncode img)
  let m ← loadRGBA img
  pure (env.pngEncode m)

/-- The statements of Go `(*Generator).Generate` from the fetch to the second
`draw.Draw` (lines 69 to 92): fetch and resize the avatar, create the output
image, draw the background, compute the avatar position and draw the avatar.
It hands on what the rest of `Generate` uses: `output`, `avatarY` and
`avatarBounds`, or the error of the fetch. -/
def composite (env : Env) (g : Generator) (avatarURL : String) :
    M (Except Error (Addr × Int × Rectangle)) := do
  let fetched ← fetchImage env avatarURL
  match fetched with
  | Except.error err => pure (Except.error err)
  | Except.ok avatar0 => do
    let avatar ← resizeResize env avatarSize avatarSize avatar0
    let bounds ← imageBounds g.background
    let output ← imageNewRGBA bounds
    drawDraw output bounds g.background ⟨0, 0⟩ Op.Src
    let avatarBounds ← imageBounds avatar
    let avatarX := Int.tdiv (wrapInt (bounds.Dx - avatarBounds.Dx)) 2
    let avatarY := wrapInt (Int.tdiv bounds.Dy 3 - Int.tdiv avatarBounds.Dy 2)
    let avatarRect :=
      Rect avatarX avatarY (wrapInt (avatarX + avatarBounds.Dx))
        (wrapInt (avatarY + avatarBounds.Dy))
    drawDraw output avatarRect avatar ⟨0, 0⟩ Op.Over
    pure (Except.ok (output, avatarY, avatarBounds))

/-- Go `(*Generator).Generate`: create a poster with the given name and
avatar.  The result is the pair `(string, error)`; the statements up to the
second `draw.Draw` are `composite`, then come the text (line 95), the PNG
encoding (line 101) and the base64 encoding (line 105). -/
def Generate (env : Env) (g : Generator) (name avatarURL : String) :
    M (String × Option Error) := do
  emit (Event.Generate name avatarURL)
  let composed ← composite env g avatarURL
  match composed with
  | Except.error err => pure ("", some (Error.wrap "failed to fetch avatar" err))
  | Except.ok (output, avatarY, avatarBounds) => do
    let textErr ← drawText g output name (wrapInt (wrapInt (avatarY + avatarBounds.Dy) + 30))
    match textErr with
    | some err => pure ("", some (Error.wrap "failed to draw text" err))
    | none => do
      let encoded ← pngEncode env output
      match encoded with
      | Except.error err => pure ("", some (Error.wrap "failed to encode output" err))
      | Except.ok buf => do
        emit Event.base64Encode
        pure (EncodeToString buf, none)

end Poster

/-! ## `cmd/lambda/main.go` -/

namespace Lambda

open Poster

/-- Go `Request`: the incoming request body. -/
structure Request where
  Name : String
  AvatarURL : String
deriving DecidableEq, Repr

/-- Go `Response`: the response body. -/
structure Response where
  Image : String
  Error : String
deriving DecidableEq, Repr

/-- Go `events.APIGatewayProxyRequest`, the field the handler reads. -/
structure APIGatewayProxyRequest where
  Body : String
deriving DecidableEq, Repr

/-- Go `events.APIGatewayProxyResponse`. -/
structure APIGatewayProxyResponse where
  StatusCode : Int
  Headers : List (String × String)
  Body : String
deriving DecidableEq, Repr

/-- Go `encoding/json` at the two types the handler uses: `json.Unmarshal`
into a zero `Request`, and `json.Marshal` of a `Response`. -/
structure Json where
  Unmarshal : String → Except Poster.Error Request
  Marshal : Response → String

/-- Go `errorResponse`. -/
def errorResponse (js : Json) (status : Int) (message : String) :
    M (APIGatewayProxyResponse × Option Poster.Error) :=
  pure
    ({ StatusCode := status,
       Headers := [("Content-Type", "application/json")],
       Body := js.Marshal { Image := "", Error := message } }, none)

/-- Go `handler`, with the package-level `generator` passed in. -/
def handler (env : Env) (js : Json) (generator : Generator)
    (event : APIGatewayProxyRequest) :
    M (APIGatewayProxyResponse × Option Poster.Error) :=
  match js.Unmarshal event.Body with
  | Except.error _ => errorResponse js 400 "invalid request body"
  | Except.ok req =>
    if req.Name = "" then errorResponse js 400 "name is required"
    else if req.AvatarURL = "" then errorResponse js 400 "avatarUrl is required"
    else do
      let r ← Generate env generator req.Name req.AvatarURL
      match r.2 with
      | some _ => do
        emit Event.logPrintf
        errorResponse js 500 "failed to generate poster"
      | none =>
        pure
          ({ StatusCode := 200,
             Headers := [("Content-Type", "application/json")],
             Body := js.Marshal { Image := r.1, Error := "" } }, none)

end Lambda

/-! ## Vocabulary of the statements -/

namespace Poster

/-- Every pixel of the image honours the `color.Color` contract. -/
def Image.WellFormed (m : Image) : Prop := ∀ x y, (m.At x y).Valid

/-- Every pixel of the image has full alpha, as in a decoded JPEG (which has
no alpha channel). -/
def Image.FullAlpha (m : Image) : Prop := ∀ x y, (m.At x y).A = 65535

/-- The GET of `url` is answered with status 200 and a body that is read to
its end and decodes to the image `av`. -/
def Served (env : Env) (url : String) (av : Image) : Prop :=
  ∃ t resp t2 bytes, env.net url = Exchange.answers t resp ∧ resp.StatusCode = 200 ∧
    resp.Body = BodyRead.data t2 bytes ∧ env.Decode bytes = Except.ok av

/-- The pair that `Generate` returns once the avatar is drawn, from the error
of the text (if any) and the result of the PNG encoder. -/
def finishResult (textErr : Option String) (enc : Except Error (List Byte)) :
    String × Option Error :=
  match textErr with
  | some msg => ("", some (Error.wrap "failed to draw text" (Error.mk msg)))
  | none =>
    match enc with
    | Except.error err => ("", some (Error.wrap "failed to encode output" err))
    | Except.ok buf => (EncodeToString buf, none)

/-- The calls that `Generate` makes after `drawText`, from the same two
outcomes. -/
def finishEvents (output : Addr) (textErr : Option String)
    (enc : Except Error (List Byte)) : List Event :=
  match textErr with
  | some _ => []
  | none =>
    match enc with
    | Except.error _ => [Event.pngEncode output]
    | Except.ok _ => [Event.pngEncode output, Event.base64Encode]

/-- The events a run added to the log of the state it started from. -/
def newEvents (s s1 : State) : List Event := s1.trace.drop s.trace.length

/-- The arguments of a `draw.Draw` call with `draw.Over`. -/
def Event.overDraw : Event → Option (Addr × Rectangle × Addr × Point)
  | Event.draw dst r src sp Op.Over => some (dst, r, src, sp)
  | _ => none

/-- The image and baseline of a `drawText` call. -/
def Event.textCall : Event → Option (Addr × Int)
  | Event.drawText img _ y => some (img, y)
  | _ => none

/-- The text and start point of a `DrawString` call. -/
def Event.penStart : Event → Option (String × Point26_6)
  | Event.drawString _ text p => some (text, p)
  | _ => none

/-- The URL of an `http.Get` call. -/
def Event.getURL : Event → Option String
  | Event.httpGet url => some url
  | _ => none

/-- The name and URL of a `Generate` call. -/
def Event.generateCall : Event → Option (String × String)
  | Event.Generate name url => some (name, url)
  | _ => none

/-- The callee of a logged call, without its arguments. -/
inductive Call where
  | Generate
  | fetchImage
  | httpGet
  | bodyClose
  | resize
  | newRGBA
  | drawSrc
  | drawOver
  | drawText
  | drawString
  | pngEncode
  | base64Encode
  | logPrintf
deriving DecidableEq, Repr

/-- The callee of an event. -/
def Event.call : Event → Call
  | Event.Generate _ _ => Call.Generate
  | Event.fetchImage _ => Call.fetchImage
  | Event.httpGet _ => Call.httpGet
  | Event.bodyClose => Call.bodyClose
  | Event.resize _ _ _ => Call.resize
  | Event.newRGBA _ => Call.newRGBA
  | Event.draw _ _ _ _ Op.Src => Call.drawSrc
  | Event.draw _ _ _ _ Op.Over => Call.drawOver
  | Event.drawText _ _ _ => Call.drawText
  | Event.drawString _ _ _ => Call.drawString
  | Event.pngEncode _ => Call.pngEncode
  | Event.base64Encode => Call.base64Encode
  | Event.logPrintf => Call.logPrintf

/-- A status code of the class 2xx (Successful) of HTTP. -/
def isSuccessStatus (code : Int) : Bool := decide (200 ≤ code) && decide (code < 300)

/-- The options of the face that `drawText` measures with. -/
def measureOptions : Options :=
  { Size := fontSize, DPI := dpi, Hinting := Hinting.HintingNone }

/-! ## A concrete request: background 800×1200, avatar 400×400, name "Ada" -/

/-- A grey-blue background of 800×1200 pixels. -/
def exBackground : Image :=
  ⟨⟨⟨0, 0⟩, ⟨800, 1200⟩⟩, fun _ _ => ⟨8224, 16448, 24672, 65535⟩⟩

/-- A solid red avatar source of 400×400 pixels. -/
def exAvatar : Image :=
  ⟨⟨⟨0, 0⟩, ⟨400, 400⟩⟩, fun _ _ => ⟨65535, 0, 0, 65535⟩⟩

/-- A face whose every glyph advances by 20 pixels, without kerning. -/
def exFace : Face := ⟨fun _ _ => 0, fun _ => some 1280⟩

/-- A font with that face whose glyphs cover nothing. -/
def exFont : Font := ⟨fun _ => exFace, fun _ _ _ _ _ => (fun _ _ => [], none)⟩

/-- A toy image encoder: the width and height as two 16-bit big-endian
numbers, for rasters at the origin with both below 65536. -/
def exEncode (m : ImageRGBA) : Except Error (List Byte) :=
  if m.Rect.Min = ⟨0, 0⟩ ∧ 0 ≤ m.Rect.Max.X ∧ m.Rect.Max.X < 65536 ∧
      0 ≤ m.Rect.Max.Y ∧ m.Rect.Max.Y < 65536 then
    Except.ok [Fin.ofNat (m.Rect.Max.X.toNat / 256), Fin.ofNat (m.Rect.Max.X.toNat % 256),
      Fin.ofNat (m.Rect.Max.Y.toNat / 256), Fin.ofNat (m.Rect.Max.Y.toNat % 256)]
  else Except.error (Error.mk "invalid image size")

/-- The decoder of the toy encoder. -/
def exDecode (bytes : List Byte) : Except Error Image :=
  match bytes with
  | [a, b, c, d] =>
    Except.ok ⟨⟨⟨0, 0⟩, ⟨(a.val * 256 + b.val : Nat), (c.val * 256 + d.val : Nat)⟩⟩,
      fun _ _ => ⟨0, 0, 0, 0⟩⟩
  | _ => Except.error (Error.mk "not an image")

/-- A world where every URL answers 200 with a body that decodes to the
avatar, and resampling keeps the colour of the solid source. -/
def exEnv : Env :=
  { net := fun _ => Exchange.answers 5 ⟨200, BodyRead.data 7 [1, 2, 3]⟩
    Decode := fun _ => Except.ok exAvatar
    Resize := fun w h m => ⟨⟨⟨0, 0⟩, ⟨w, h⟩⟩, m.At⟩
    pngEncode := exEncode }

/-- The same world with a server that never answers. -/
def exSilentEnv : Env := { exEnv with net := fun _ => Exchange.never }

/-- The same world with a server that answers 203 (Non-Authoritative
Information) with the same decodable body. -/
def exEnv203 : Env :=
  { exEnv with net := fun _ => Exchange.answers 5 ⟨203, BodyRead.data 7 [1, 2, 3]⟩ }

/-- The generator: background at address 0, font at address 1. -/
def exGenerator : Generator := ⟨0, 1⟩

/-- The heap after `NewGenerator`, with an empty log. -/
def exState : State := ⟨[Obj.image exBackground, Obj.font exFont], []⟩

/-- A font with the same face whose first glyph fails to load. -/
def exFailFont : Font :=
  ⟨fun _ => exFace, fun _ _ _ _ _ => (fun _ _ => [], some "freetype: unsupported glyph")⟩

/-- The heap after `NewGenerator` with the failing font. -/
def exFailState : State := ⟨[Obj.image exBackground, Obj.font exFailFont], []⟩

/-- The same world with a PNG encoder that fails. -/
def exNoEncodeEnv : Env :=
  { exEnv with pngEncode := fun _ => Except.error (Error.mk "png: invalid image size") }

/-- A background narrower than the avatar: 149×1200 pixels. -/
def exNarrowBackground : Image :=
  ⟨⟨⟨0, 0⟩, ⟨149, 1200⟩⟩, fun _ _ => ⟨8224, 16448, 24672, 65535⟩⟩

/-- The heap after `NewGenerator` with the narrow background. -/
def exNarrowState : State := ⟨[Obj.image exNarrowBackground, Obj.font exFont], []⟩

/-- A state that also holds a blank canvas of 800×1200 at address 2. -/
def exCanvasState : State :=
  ⟨[Obj.image exBackground, Obj.font exFont,
    Obj.rgba ⟨⟨⟨0, 0⟩, ⟨800, 1200⟩⟩, fun _ _ => ⟨0, 0, 0, 0⟩⟩], []⟩

end Poster

namespace Lambda

/-- A toy JSON codec: the body `name|url` parses to a request, a body
without a `|` is malformed; a response is marshalled as `image:` or `error:`
followed by the text. -/
def exJson : Json :=
  { Unmarshal := fun body =>
      match body.data.dropWhile (fun c => c != '|') with
      | [] => Except.error (Poster.Error.mk "invalid character")
      | _ :: u => Except.ok ⟨String.mk (body.data.takeWhile (fun c => c != '|')), String.mk u⟩
    Marshal := fun r => if r.Error = "" then "image:" ++ r.Image else "error:" ++ r.Error }

end Lambda

/-! ## Theorems -/


/-! ## Runs of the embedded functions -/

namespace Poster

theorem wrapInt_eq {x : Int} (h1 : -9223372036854775808 ≤ x) (h2 : x < 9223372036854775808) :
    wrapInt x = x := by
  unfold wrapInt; omega

theorem tdiv_two (a : Int) :
    (0 ≤ a ∧ Int.tdiv a 2 = a / 2) ∨ (a < 0 ∧ Int.tdiv a 2 = -((-a) / 2)) := by
  rcases le_or_lt 0 a with h | h
  · left
    exact ⟨h, Int.tdiv_eq_ediv h (by omega)⟩
  · right
    refine ⟨h, ?_⟩
    have hneg : a = -(-a) := by omega
    rw [hneg, Int.neg_tdiv, Int.tdiv_eq_ediv (by omega) (by omega)]
    simp

theorem tdiv_three_nat (n : Nat) : Int.tdiv (n : Int) 3 = (n : Int) / 3 :=
  Int.tdiv_eq_ediv (by omega) (by omega)

@[simp] theorem bind_run {α β : Type} (m : M α) (f : α → M β) (s : State) :
    (m >>= f) s = M.bind m f s := rfl

@[simp] theorem pure_run {α : Type} (a : α) (s : State) :
    (pure a : M α) s = Exec.returned (a, s) := rfl

theorem heap_at0 {α : Type} (l r : List α) (a : α) :
    (l ++ a :: r)[l.length]? = some a := by
  rw [List.getElem?_append_right (le_refl _)]
  simp

theorem heap_at1 {α : Type} (l r : List α) (a b : α) :
    (l ++ a :: b :: r)[l.length + 1]? = some b := by
  rw [List.getElem?_append_right (by omega)]
  simp

theorem heap_at2 {α : Type} (l r : List α) (a b c : α) :
    (l ++ a :: b :: c :: r)[l.length + 2]? = some c := by
  rw [List.getElem?_append_right (by omega)]
  simp

theorem heap_set2 {α : Type} (l : List α) (a b c d : α) :
    (l ++ [a, b, c]).set (l.length + 2) d = l ++ [a, b, d] := by
  rw [List.set_append]
  simp

theorem lt_of_getElem?_eq_some {α : Type} {l : List α} {i : Nat} {a : α}
    (h : l[i]? = some a) : i < l.length := by
  rcases Nat.lt_or_ge i l.length with hlt | hge
  · exact hlt
  · rw [List.getElem?_eq_none hge] at h
    simp at h

theorem newEvents_append (s : State) (h : List Obj) (evs : List Event) :
    newEvents s { heap := h, trace := s.trace ++ evs } = evs := by
  simp [newEvents]

theorem fetchImage_fails (env : Env) (url : String) (s : State) (err : Error)
    (h : env.net url = Exchange.fails err) :
    fetchImage env url s =
      Exec.returned (Except.error err,
        { heap := s.heap, trace := s.trace ++ [Event.fetchImage url, Event.httpGet url] }) := by
  simp [fetchImage, httpGet, M.bind, emit, h, Client.Get, DefaultClient]

theorem fetchImage_never (env : Env) (url : String) (s : State)
    (h : env.net url = Exchange.never) :
    fetchImage env url s = Exec.blocked := by
  simp [fetchImage, httpGet, M.bind, emit, h, Client.Get, DefaultClient, block]

theorem fetchImage_status (env : Env) (url : String) (s : State) (t : Nat) (resp : Response)
    (h : env.net url = Exchange.answers t resp) (hs : resp.StatusCode ≠ 200) :
    fetchImage env url s =
      Exec.returned (Except.error (Error.status resp.StatusCode),
        { heap := s.heap,
          trace := s.trace ++ [Event.fetchImage url, Event.httpGet url, Event.bodyClose] }) := by
  simp [fetchImage, httpGet, M.bind, emit, h, Client.Get, DefaultClient, StatusOK, hs]

theorem fetchImage_stalls (env : Env) (url : String) (s : State) (t : Nat) (resp : Response)
    (h : env.net url = Exchange.answers t resp) (hs : resp.StatusCode = 200)
    (hb : resp.Body = BodyRead.stalls) :
    fetchImage env url s = Exec.blocked := by
  simp [fetchImage, httpGet, M.bind, emit, h, Client.Get, DefaultClient, StatusOK, hs,
    ioReadAll, Client.ReadAll, hb, block]

theorem fetchImage_read_fails (env : Env) (url : String) (s : State) (t : Nat)
    (resp : Response) (err : Error)
    (h : env.net url = Exchange.answers t resp) (hs : resp.StatusCode = 200)
    (hb : resp.Body = BodyRead.fails err) :
    fetchImage env url s =
      Exec.returned (Except.error err,
        { heap := s.heap,
          trace := s.trace ++ [Event.fetchImage url, Event.httpGet url, Event.bodyClose] }) := by
  simp [fetchImage, httpGet, M.bind, emit, h, Client.Get, DefaultClient, StatusOK, hs,
    ioReadAll, Client.ReadAll, hb]

theorem fetchImage_decode_fails (env : Env) (url : String) (s : State) (t t2 : Nat)
    (resp : Response) (bytes : List Byte) (err : Error)
    (h : env.net url = Exchange.answers t resp) (hs : resp.StatusCode = 200)
    (hb : resp.Body = BodyRead.data t2 bytes) (hd : env.Decode bytes = Except.error err) :
    fetchImage env url s =
      Exec.returned (Except.error err,
        { heap := s.heap,
          trace := s.trace ++ [Event.fetchImage url, Event.httpGet url, Event.bodyClose] }) := by
  simp [fetchImage, httpGet, M.bind, emit, h, Client.Get, DefaultClient, StatusOK, hs,
    ioReadAll, Client.ReadAll, hb, hd]

theorem fetchImage_ok (env : Env) (url : String) (s : State) (t t2 : Nat)
    (resp : Response) (bytes : List Byte) (img : Image)
    (h : env.net url = Exchange.answers t resp) (hs : resp.StatusCode = 200)
    (hb : resp.Body = BodyRead.data t2 bytes) (hd : env.Decode bytes = Except.ok img) :
    fetchImage env url s =
      Exec.returned (Except.ok s.heap.length,
        { heap := s.heap ++ [Obj.image img],
          trace := s.trace ++ [Event.fetchImage url, Event.httpGet url, Event.bodyClose] }) := by
  simp [fetchImage, httpGet, M.bind, emit, h, Client.Get, DefaultClient, StatusOK, hs,
    ioReadAll, Client.ReadAll, hb, hd, alloc]

theorem composite_run (env : Env) (g : Generator) (url : String) (s : State)
    (t t2 : Nat) (resp : Response) (bytes : List Byte) (av bg : Image) (c0 : ImageRGBA)
    (hnet : env.net url = Exchange.answers t resp) (hs : resp.StatusCode = 200)
    (hb : resp.Body = BodyRead.data t2 bytes)
    (hdec : env.Decode bytes = Except.ok av)
    (hbg : s.heap[g.background]? = some (Obj.image bg))
    (hnew : NewRGBA bg.Bounds = some c0)
    (aX aY : Int) (aRect : Rectangle)
    (hX : aX = Int.tdiv (wrapInt (bg.Bounds.Dx - (env.Resize 150 150 av).Bounds.Dx)) 2)
    (hY : aY = wrapInt (Int.tdiv bg.Bounds.Dy 3 - Int.tdiv (env.Resize 150 150 av).Bounds.Dy 2))
    (hR : aRect = Rect aX aY (wrapInt (aX + (env.Resize 150 150 av).Bounds.Dx))
        (wrapInt (aY + (env.Resize 150 150 av).Bounds.Dy))) :
    composite env g url s =
      Exec.returned (Except.ok (s.heap.length + 2, aY, (env.Resize 150 150 av).Bounds),
        { heap := s.heap ++ [Obj.image av, Obj.image (env.Resize 150 150 av),
            Obj.rgba (Draw (Draw c0 bg.Bounds bg ⟨0, 0⟩ Op.Src) aRect
              (env.Resize 150 150 av) ⟨0, 0⟩ Op.Over)],
          trace := s.trace ++ [Event.fetchImage url, Event.httpGet url, Event.bodyClose,
            Event.resize 150 150 s.heap.length, Event.newRGBA bg.Bounds,
            Event.draw (s.heap.length + 2) bg.Bounds g.background ⟨0, 0⟩ Op.Src,
            Event.draw (s.heap.length + 2) aRect (s.heap.length + 1) ⟨0, 0⟩ Op.Over] }) := by
  have hlt : g.background < s.heap.length := lt_of_getElem?_eq_some hbg
  subst hX hY hR
  simp [composite, fetchImage_ok env url s t t2 resp bytes av hnet hs hb hdec, M.bind,
    resizeResize, emit, loadImage, alloc, imageBounds, imageNewRGBA, hnew, drawDraw, loadRGBA,
    storeRGBA, avatarSize, List.getElem?_append_left, heap_at0, heap_at1, heap_at2, heap_set2,
    hlt, hbg, -List.getElem?_eq_getElem]

theorem drawText_run (g : Generator) (img : Addr) (text : String) (y : Int) (s : State)
    (canvas : ImageRGBA) (f : Font)
    (hi : s.heap[img]? = some (Obj.rgba canvas))
    (hf : s.heap[g.font]? = some (Obj.font f))
    (x : Int)
    (hx : x = Int.tdiv (wrapInt (canvas.Rect.Dx -
      Ceil (MeasureString (f.NewFace measureOptions) text))) 2) :
    drawText g img text y s =
      Exec.returned
        ((f.Glyphs 72 36 Hinting.HintingFull text (Pt x y)).2.map Error.mk,
        { heap := s.heap.set img (Obj.rgba (drawGlyphs canvas.Rect White canvas
            (f.Glyphs 72 36 Hinting.HintingFull text (Pt x y)).1)),
          trace := s.trace ++ [Event.drawText img text y,
            Event.drawString img text (Pt x y)] }) := by
  subst hx
  simp [drawText, DrawString, M.bind, emit, loadRGBA, loadFont, storeRGBA, hi, hf, dpi,
    fontSize, measureOptions]


theorem composite_served (env : Env) (g : Generator) (url : String) (s : State)
    (av bg : Image) (c0 : ImageRGBA)
    (hserved : Served env url av)
    (hbg : s.heap[g.background]? = some (Obj.image bg))
    (hnew : NewRGBA bg.Bounds = some c0)
    (aX aY : Int) (aRect : Rectangle)
    (hX : aX = Int.tdiv (wrapInt (bg.Bounds.Dx - (env.Resize 150 150 av).Bounds.Dx)) 2)
    (hY : aY = wrapInt (Int.tdiv bg.Bounds.Dy 3 - Int.tdiv (env.Resize 150 150 av).Bounds.Dy 2))
    (hR : aRect = Rect aX aY (wrapInt (aX + (env.Resize 150 150 av).Bounds.Dx))
        (wrapInt (aY + (env.Resize 150 150 av).Bounds.Dy))) :
    composite env g url s =
      Exec.returned (Except.ok (s.heap.length + 2, aY, (env.Resize 150 150 av).Bounds),
        { heap := s.heap ++ [Obj.image av, Obj.image (env.Resize 150 150 av),
            Obj.rgba (Draw (Draw c0 bg.Bounds bg ⟨0, 0⟩ Op.Src) aRect
              (env.Resize 150 150 av) ⟨0, 0⟩ Op.Over)],
          trace := s.trace ++ [Event.fetchImage url, Event.httpGet url, Event.bodyClose,
            Event.resize 150 150 s.heap.length, Event.newRGBA bg.Bounds,
            Event.draw (s.heap.length + 2) bg.Bounds g.background ⟨0, 0⟩ Op.Src,
            Event.draw (s.heap.length + 2) aRect (s.heap.length + 1) ⟨0, 0⟩ Op.Over] }) := by
  obtain ⟨t, resp, t2, bytes, hnet, hs, hb, hdec⟩ := hserved
  exact composite_run env g url s t t2 resp bytes av bg c0 hnet hs hb hdec hbg hnew aX aY aRect
    hX hY hR

theorem Generate_run (env : Env) (g : Generator) (name url : String) (s : State)
    (av bg : Image) (c0 : ImageRGBA) (f : Font)
    (hserved : Served env url av)
    (hbg : s.heap[g.background]? = some (Obj.image bg))
    (hfont : s.heap[g.font]? = some (Obj.font f))
    (hnew : NewRGBA bg.Bounds = some c0)
    (aX aY : Int) (aRect : Rectangle)
    (hX : aX = Int.tdiv (wrapInt (bg.Bounds.Dx - (env.Resize 150 150 av).Bounds.Dx)) 2)
    (hY : aY = wrapInt (Int.tdiv bg.Bounds.Dy 3 - Int.tdiv (env.Resize 150 150 av).Bounds.Dy 2))
    (hR : aRect = Rect aX aY (wrapInt (aX + (env.Resize 150 150 av).Bounds.Dx))
        (wrapInt (aY + (env.Resize 150 150 av).Bounds.Dy)))
    (c2 : ImageRGBA)
    (hc2 : c2 = Draw (Draw c0 bg.Bounds bg ⟨0, 0⟩ Op.Src) aRect
      (env.Resize 150 150 av) ⟨0, 0⟩ Op.Over)
    (x y : Int)
    (hy : y = wrapInt (wrapInt (aY + (env.Resize 150 150 av).Bounds.Dy) + 30))
    (hx : x = Int.tdiv (wrapInt (c2.Rect.Dx -
      Ceil (MeasureString (f.NewFace measureOptions) name))) 2)
    (cover : Int → Int → List Nat) (textErr : Option String)
    (hgl : f.Glyphs 72 36 Hinting.HintingFull name (Pt x y) = (cover, textErr))
    (c3 : ImageRGBA) (hc3 : c3 = drawGlyphs c2.Rect White c2 cover) :
    Generate env g name url s =
      Exec.returned
        (finishResult textErr (env.pngEncode c3),
        { heap := s.heap ++ [Obj.image av, Obj.image (env.Resize 150 150 av), Obj.rgba c3],
          trace := s.trace ++ [Event.Generate name url, Event.fetchImage url,
            Event.httpGet url, Event.bodyClose,
            Event.resize 150 150 s.heap.length, Event.newRGBA bg.Bounds,
            Event.draw (s.heap.length + 2) bg.Bounds g.background ⟨0, 0⟩ Op.Src,
            Event.draw (s.heap.length + 2) aRect (s.heap.length + 1) ⟨0, 0⟩ Op.Over,
            Event.drawText (s.heap.length + 2) name y,
            Event.drawString (s.heap.length + 2) name (Pt x y)] ++
            finishEvents (s.heap.length + 2) textErr (env.pngEncode c3) }) := by
  have hlt : g.font < s.heap.length := lt_of_getElem?_eq_some hfont
  have hcomp := composite_served env g url
    { heap := s.heap, trace := s.trace ++ [Event.Generate name url] } av bg c0 hserved hbg hnew
    aX aY aRect hX hY hR
  have htext := drawText_run g (s.heap.length + 2) name y
    { heap := s.heap ++ [Obj.image av, Obj.image (env.Resize 150 150 av), Obj.rgba c2],
      trace := s.trace ++ [Event.Generate name url] ++ [Event.fetchImage url,
        Event.httpGet url, Event.bodyClose,
        Event.resize 150 150 s.heap.length, Event.newRGBA bg.Bounds,
        Event.draw (s.heap.length + 2) bg.Bounds g.background ⟨0, 0⟩ Op.Src,
        Event.draw (s.heap.length + 2) aRect (s.heap.length + 1) ⟨0, 0⟩ Op.Over] }
    c2 f (heap_at2 _ _ _ _ _) (by simpa [List.getElem?_append_left, hlt] using hfont) x hx
  rw [hgl] at htext
  rw [← hc2] at hcomp
  subst hy
  simp only [heap_set2, ← hc3] at htext
  simp only [List.append_assoc, List.cons_append, List.nil_append, List.singleton_append]
    at hcomp htext
  cases textErr with
  | some msg =>
    simp [Generate, M.bind, emit, hcomp, htext, finishResult, finishEvents]
  | none =>
    cases henc : env.pngEncode c3 with
    | error err =>
      simp [Generate, M.bind, emit, hcomp, htext, pngEncode, loadRGBA, heap_at2, henc,
        finishResult, finishEvents, -List.getElem?_eq_getElem]
    | ok buf =>
      simp [Generate, M.bind, emit, hcomp, htext, pngEncode, loadRGBA, heap_at2, henc,
        finishResult, finishEvents, -List.getElem?_eq_getElem]


theorem Dx_origin (W H : Nat) (hW : W < 9223372036854775808) :
    (Rectangle.mk ⟨0, 0⟩ ⟨(W : Int), (H : Int)⟩).Dx = W := by
  simp only [Rectangle.Dx]
  exact wrapInt_eq (by omega) (by omega)

theorem Dy_origin (W H : Nat) (hH : H < 9223372036854775808) :
    (Rectangle.mk ⟨0, 0⟩ ⟨(W : Int), (H : Int)⟩).Dy = H := by
  simp only [Rectangle.Dy]
  exact wrapInt_eq (by omega) (by omega)

theorem avatarX_eq (W : Nat) (hW : W < 9223372036854775808) :
    Int.tdiv (wrapInt ((W : Int) - 150)) 2 = Int.tdiv ((W : Int) - 150) 2 := by
  rw [wrapInt_eq (by omega) (by omega)]

theorem avatarX_bounds (W : Nat) (hW : W < 9223372036854775808) :
    -75 ≤ Int.tdiv ((W : Int) - 150) 2 ∧ Int.tdiv ((W : Int) - 150) 2 < 4611686018427387904 := by
  rcases tdiv_two ((W : Int) - 150) with ⟨h, e⟩ | ⟨h, e⟩ <;> rw [e] <;> omega

theorem avatarY_eq (H : Nat) (hH : H < 9223372036854775808) :
    wrapInt (Int.tdiv (H : Int) 3 - Int.tdiv 150 2) = Int.tdiv (H : Int) 3 - 75 := by
  have h75 : Int.tdiv 150 2 = 75 := by decide
  rw [h75, wrapInt_eq] <;> rw [tdiv_three_nat] <;> omega

theorem avatarY_bounds (H : Nat) (hH : H < 9223372036854775808) :
    -75 ≤ Int.tdiv (H : Int) 3 - 75 ∧ Int.tdiv (H : Int) 3 - 75 < 3074457345618258603 := by
  rw [tdiv_three_nat]; omega

theorem avatarRect_eq (W H : Nat) (hW : W < 9223372036854775808)
    (hH : H < 9223372036854775808) :
    Rect (Int.tdiv ((W : Int) - 150) 2) (Int.tdiv (H : Int) 3 - 75)
        (wrapInt (Int.tdiv ((W : Int) - 150) 2 + 150))
        (wrapInt (Int.tdiv (H : Int) 3 - 75 + 150)) =
      ⟨⟨Int.tdiv ((W : Int) - 150) 2, Int.tdiv (H : Int) 3 - 75⟩,
       ⟨Int.tdiv ((W : Int) - 150) 2 + 150, Int.tdiv (H : Int) 3 - 75 + 150⟩⟩ := by
  have hx := avatarX_bounds W hW
  have hy := avatarY_bounds H hH
  rw [wrapInt_eq (by omega) (by omega), wrapInt_eq (by omega) (by omega)]
  simp only [Rect]
  rw [if_neg (by omega), if_neg (by omega), if_neg (by omega), if_neg (by omega)]

theorem baseline_eq (H : Nat) (hH : H < 9223372036854775808) :
    wrapInt (wrapInt (Int.tdiv (H : Int) 3 - 75 + 150) + 30) =
      Int.tdiv (H : Int) 3 - 75 + 150 + 30 := by
  have hy := avatarY_bounds H hH
  rw [wrapInt_eq (x := Int.tdiv (H : Int) 3 - 75 + 150) (by omega) (by omega),
    wrapInt_eq (by omega) (by omega)]


theorem Draw_Rect (d : ImageRGBA) (r : Rectangle) (src : Image) (sp : Point) (op : Op) :
    (Draw d r src sp op).Rect = d.Rect := by
  simp only [Draw]
  split <;> rfl

theorem NewRGBA_some {r : Rectangle} {c : ImageRGBA} (h : NewRGBA r = some c) :
    c = ⟨r, fun _ _ => ⟨0, 0, 0, 0⟩⟩ ∧ 0 ≤ r.Dx ∧ r.Dx < 4611686018427387904 ∧ 0 ≤ r.Dy := by
  unfold NewRGBA at h
  split at h
  · simp at h
  · rename_i n hn
    simp only [Option.some.injEq] at h
    refine ⟨h.symm, ?_⟩
    unfold pixelBufferLength at hn
    split at hn
    · simp at hn
    · split at hn
      · simp at hn
      · omega

theorem Ceil_bounds (x : Int) : -33554432 ≤ Ceil x ∧ Ceil x < 33554432 := by
  unfold Ceil wrapInt32
  omega

theorem penX_eq (W : Nat) (hW : W < 4611686018427387904) (tw : Int)
    (h1 : -33554432 ≤ tw) (h2 : tw < 33554432) :
    Int.tdiv (wrapInt ((W : Int) - tw)) 2 = Int.tdiv ((W : Int) - tw) 2 := by
  rw [wrapInt_eq (by omega) (by omega)]

/-- The run of `Generate` for a served avatar, a resized avatar of 150×150 and
a background at the origin of width `W` and height `H`. -/
theorem Generate_poster (env : Env) (g : Generator) (name url : String) (s : State)
    (av bg : Image) (f : Font) (W H : Nat)
    (hserved : Served env url av)
    (hres : (env.Resize 150 150 av).Bounds = ⟨⟨0, 0⟩, ⟨150, 150⟩⟩)
    (hbg : s.heap[g.background]? = some (Obj.image bg))
    (hfont : s.heap[g.font]? = some (Obj.font f))
    (hB : bg.Bounds = ⟨⟨0, 0⟩, ⟨(W : Int), (H : Int)⟩⟩)
    (hW : W < 9223372036854775808) (hH : H < 9223372036854775808)
    (hnew : (NewRGBA bg.Bounds).isSome = true) :
    ∃ r c3 tail,
      Generate env g name url s =
        Exec.returned (r,
          { heap := s.heap ++ [Obj.image av, Obj.image (env.Resize 150 150 av), Obj.rgba c3],
            trace := s.trace ++ ([Event.Generate name url, Event.fetchImage url,
              Event.httpGet url, Event.bodyClose,
              Event.resize 150 150 s.heap.length, Event.newRGBA bg.Bounds,
              Event.draw (s.heap.length + 2) bg.Bounds g.background ⟨0, 0⟩ Op.Src,
              Event.draw (s.heap.length + 2)
                ⟨⟨Int.tdiv ((W : Int) - 150) 2, Int.tdiv (H : Int) 3 - 75⟩,
                 ⟨Int.tdiv ((W : Int) - 150) 2 + 150, Int.tdiv (H : Int) 3 - 75 + 150⟩⟩
                (s.heap.length + 1) ⟨0, 0⟩ Op.Over,
              Event.drawText (s.heap.length + 2) name (Int.tdiv (H : Int) 3 - 75 + 150 + 30),
              Event.drawString (s.heap.length + 2) name
                (Pt (Int.tdiv ((W : Int) -
                    Ceil (MeasureString (f.NewFace measureOptions) name)) 2)
                  (Int.tdiv (H : Int) 3 - 75 + 150 + 30))] ++ tail) }) ∧
      c3.Rect = bg.Bounds ∧
      (tail = [] ∨ tail = [Event.pngEncode (s.heap.length + 2)] ∨
        tail = [Event.pngEncode (s.heap.length + 2), Event.base64Encode]) ∧
      c3 = drawGlyphs bg.Bounds White
        (Draw (Draw ⟨bg.Bounds, fun _ _ => ⟨0, 0, 0, 0⟩⟩ bg.Bounds bg ⟨0, 0⟩ Op.Src)
          ⟨⟨Int.tdiv ((W : Int) - 150) 2, Int.tdiv (H : Int) 3 - 75⟩,
           ⟨Int.tdiv ((W : Int) - 150) 2 + 150, Int.tdiv (H : Int) 3 - 75 + 150⟩⟩
          (env.Resize 150 150 av) ⟨0, 0⟩ Op.Over)
        (f.Glyphs 72 36 Hinting.HintingFull name
          (Pt (Int.tdiv ((W : Int) -
              Ceil (MeasureString (f.NewFace measureOptions) name)) 2)
            (Int.tdiv (H : Int) 3 - 75 + 150 + 30))).1 := by
  obtain ⟨c0, hc0⟩ := Option.isSome_iff_exists.mp hnew
  obtain ⟨hc0eq, hdx0, hdx1, -⟩ := NewRGBA_some hc0
  have hDx : bg.Bounds.Dx = W := by rw [hB]; exact Dx_origin W H hW
  have hDy : bg.Bounds.Dy = H := by rw [hB]; exact Dy_origin W H hH
  have hW2 : W < 4611686018427387904 := by rw [hDx] at hdx1; omega
  have hrDx : (env.Resize 150 150 av).Bounds.Dx = 150 := by rw [hres]; decide
  have hrDy : (env.Resize 150 150 av).Bounds.Dy = 150 := by rw [hres]; decide
  have hrect : (Draw (Draw c0 bg.Bounds bg ⟨0, 0⟩ Op.Src)
      ⟨⟨Int.tdiv ((W : Int) - 150) 2, Int.tdiv (H : Int) 3 - 75⟩,
       ⟨Int.tdiv ((W : Int) - 150) 2 + 150, Int.tdiv (H : Int) 3 - 75 + 150⟩⟩
      (env.Resize 150 150 av) ⟨0, 0⟩ Op.Over).Rect = bg.Bounds := by
    rw [Draw_Rect, Draw_Rect, hc0eq]
  have hcb := Ceil_bounds (MeasureString (f.NewFace measureOptions) name)
  cases hgl : f.Glyphs 72 36 Hinting.HintingFull name
      (Pt (Int.tdiv ((W : Int) - Ceil (MeasureString (f.NewFace measureOptions) name)) 2)
        (Int.tdiv (H : Int) 3 - 75 + 150 + 30)) with
  | mk cover textErr =>
    have hrun := Generate_run env g name url s av bg c0 f hserved hbg hfont hc0
      (Int.tdiv ((W : Int) - 150) 2) (Int.tdiv (H : Int) 3 - 75)
      ⟨⟨Int.tdiv ((W : Int) - 150) 2, Int.tdiv (H : Int) 3 - 75⟩,
       ⟨Int.tdiv ((W : Int) - 150) 2 + 150, Int.tdiv (H : Int) 3 - 75 + 150⟩⟩
      (by rw [hDx, hrDx, avatarX_eq W hW])
      (by rw [hDy, hrDy, avatarY_eq H hH])
      (by rw [hrDx, hrDy, avatarRect_eq W H hW hH])
      _ rfl
      (Int.tdiv ((W : Int) - Ceil (MeasureString (f.NewFace measureOptions) name)) 2)
      (Int.tdiv (H : Int) 3 - 75 + 150 + 30)
      (by rw [hrDy, baseline_eq H hH])
      (by rw [hrect, hDx, penX_eq W hW2 _ hcb.1 hcb.2])
      cover textErr hgl _ rfl
    rw [List.append_assoc] at hrun
    refine ⟨_, _, _, hrun, ?_, ?_, ?_⟩
    · show (drawGlyphs _ _ _ _).Rect = bg.Bounds
      exact hrect
    · cases textErr with
      | some msg => left; rfl
      | none =>
        right
        simp only [finishEvents]
        split
        · left; rfl
        · right; rfl
    · rw [hrect, ← hc0eq]


theorem wrapInt32_eq {x : Int} (h1 : -2147483648 ≤ x) (h2 : x < 2147483648) :
    wrapInt32 x = x := by
  unfold wrapInt32; omega

theorem measureLoop_fixed (face : Face) (a : Nat)
    (hadv : ∀ c, face.GlyphAdvance c = some (a : Int))
    (hkern : ∀ p c, face.Kern p c = 0) :
    ∀ (cs : List Char) (adv : Nat) (prev : Option Char),
      adv + a * cs.length < 2147483648 →
      measureLoop face cs (adv : Int) prev = ((adv + a * cs.length : Nat) : Int) := by
  intro cs
  induction cs with
  | nil => intro adv prev _; simp [measureLoop]
  | cons c cs ih =>
    intro adv prev hlt
    have hlen : a * (c :: cs).length = a * cs.length + a := by
      rw [List.length_cons, Nat.mul_succ]
    rw [hlen] at hlt
    have hstep : wrapInt32 ((adv : Int) + (a : Int)) = ((adv + a : Nat) : Int) := by
      rw [wrapInt32_eq (by omega) (by omega)]; push_cast; rfl
    have hk : (match prev with
        | some p => wrapInt32 ((adv : Int) + face.Kern p c)
        | none => (adv : Int)) = (adv : Int) := by
      cases prev with
      | none => rfl
      | some p =>
        simp only [hkern, add_zero]
        exact wrapInt32_eq (by omega) (by omega)
    unfold measureLoop
    simp only [hadv, hk, hstep]
    rw [ih (adv + a) (some c) (by omega), hlen]
    have hsum : adv + a + a * cs.length = adv + (a * cs.length + a) := by omega
    rw [hsum]

theorem MeasureString_fixed (face : Face) (cw : Nat) (name : String)
    (hadv : ∀ c, face.GlyphAdvance c = some (64 * (cw : Int)))
    (hkern : ∀ p c, face.Kern p c = 0)
    (hfit : 64 * cw * name.length < 2147483648) :
    Ceil (MeasureString face name) = (cw : Int) * (name.length : Int) := by
  have h := measureLoop_fixed face (64 * cw) (by intro c; rw [hadv]; push_cast; rfl) hkern
    name.data 0 none (by rw [Nat.zero_add]; exact hfit)
  have hlen : name.data.length = name.length := rfl
  unfold MeasureString
  rw [show ((0 : Int)) = ((0 : Nat) : Int) from rfl, h, hlen]
  unfold Ceil
  have hk : 64 * cw * name.length = 64 * (cw * name.length) := by ring
  rw [hk] at hfit ⊢
  have hcast : ((cw : Int) * (name.length : Int)) = ((cw * name.length : Nat) : Int) := by
    push_cast; rfl
  rw [hcast]
  generalize cw * name.length = k at hfit ⊢
  rw [wrapInt32_eq (by omega) (by omega)]
  omega


theorem utf8Size_ascii (c : Char) (h : c.toNat < 128) : c.utf8Size = 1 := by
  have hv : c.val ≤ 127 := by
    rw [UInt32.le_def]
    simpa [Char.toNat, Nat.lt_succ_iff] using Nat.lt_succ_iff.mp h
  simp [Char.utf8Size, hv]

theorem utf8ByteSize_go_ascii (cs : List Char) (h : ∀ c ∈ cs, c.toNat < 128) :
    String.utf8ByteSize.go cs = cs.length := by
  induction cs with
  | nil => rfl
  | cons c cs ih =>
    simp only [String.utf8ByteSize.go, List.length_cons]
    rw [ih (fun d hd => h d (List.mem_cons_of_mem _ hd)),
      utf8Size_ascii c (h c (List.mem_cons_self _ _))]

theorem len_ascii (name : String) (h : ∀ c ∈ name.data, c.toNat < 128) :
    len name = name.length := by
  cases name with
  | mk cs => exact utf8ByteSize_go_ascii cs h


/-- C3 (amended). `drawText` on a canvas of width `W` returns, and its only
`DrawString` call is given the whole text and the start point
`freetype.Pt(x, y)` with `x = (W - measuredWidth)/2` truncated toward zero,
`measuredWidth` being `font.MeasureString(face, text).Ceil()`.  For a face
whose every glyph advances by the whole number `cw` of pixels, without
kerning, and a text whose advances fit in `fixed.Int26_6`,
`x = (W - cw*n)/2` where `n` is the number of runes of the text; `n` is
`len(text)` when the text is ASCII.  A measured width above `W` gives an
`x` that is zero or negative: nothing is wrapped or cut. -/
theorem drawText_pen_start (g : Generator) (img : Addr) (text : String) (y : Int) (s : State)
    (canvas : ImageRGBA) (f : Font) (W : Nat)
    (hi : s.heap[img]? = some (Obj.rgba canvas))
    (hf : s.heap[g.font]? = some (Obj.font f))
    (hW : canvas.Rect.Dx = (W : Int)) (hW2 : W < 4611686018427387904) :
    ∃ r s1,
      drawText g img text y s = Exec.returned (r, s1) ∧
      (newEvents s s1).filterMap Event.penStart =
        [(text, Pt (Int.tdiv ((W : Int) -
          Ceil (MeasureString (f.NewFace measureOptions) text)) 2) y)] ∧
      (∀ cw : Nat,
        (∀ c, (f.NewFace measureOptions).GlyphAdvance c = some (64 * (cw : Int))) →
        (∀ p c, (f.NewFace measureOptions).Kern p c = 0) →
        64 * cw * text.length < 2147483648 →
        Int.tdiv ((W : Int) - Ceil (MeasureString (f.NewFace measureOptions) text)) 2 =
          Int.tdiv ((W : Int) - (cw : Int) * (text.length : Int)) 2) ∧
      ((∀ c ∈ text.data, c.toNat < 128) → text.length = len text) ∧
      ((W : Int) < Ceil (MeasureString (f.NewFace measureOptions) text) →
        Int.tdiv ((W : Int) - Ceil (MeasureString (f.NewFace measureOptions) text)) 2 ≤ 0) := by
  have hcb := Ceil_bounds (MeasureString (f.NewFace measureOptions) text)
  have hrun := drawText_run g img text y s canvas f hi hf
    (Int.tdiv ((W : Int) - Ceil (MeasureString (f.NewFace measureOptions) text)) 2)
    (by rw [hW, penX_eq W hW2 _ hcb.1 hcb.2])
  refine ⟨_, _, hrun, ?_, ?_, ?_, ?_⟩
  · rw [newEvents_append]
    simp [Event.penStart]
  · intro cw hadv hkern hfit
    rw [MeasureString_fixed _ cw text hadv hkern hfit]
  · intro hascii
    exact (len_ascii text hascii).symm
  · intro hlt
    rcases tdiv_two ((W : Int) - Ceil (MeasureString (f.NewFace measureOptions) text))
      with ⟨h, _⟩ | ⟨_, e⟩
    · omega
    · rw [e]; omega

/-- A canvas of width 800 and the text "Ada" in a face of 20 pixels a glyph:
the pen starts at x = (800 - 60)/2 = 370. -/
theorem drawText_pen_start_witness :
    ∃ r s1,
      drawText exGenerator 2 "Ada" 505 exCanvasState = Exec.returned (r, s1) ∧
      (newEvents exCanvasState s1).filterMap Event.penStart = [("Ada", Pt 370 505)] := by
  obtain ⟨r, s1, h1, h2, h3, -, -⟩ :=
    drawText_pen_start exGenerator 2 "Ada" 505 exCanvasState
      ⟨⟨⟨0, 0⟩, ⟨800, 1200⟩⟩, fun _ _ => ⟨0, 0, 0, 0⟩⟩ exFont 800 rfl rfl (by decide)
      (by decide)
  refine ⟨r, s1, h1, ?_⟩
  rw [h2, h3 20 (fun _ => rfl) (fun _ _ => rfl) (by decide)]
  rfl

/-- C3, as stated, fails on a name outside ASCII: in a face whose every glyph
advances by 20 pixels, without kerning, the name "é" is one rune of two
bytes, and on a canvas of width 800 the pen starts at x = (800 - 20)/2 = 390,
not at (800 - 20*len(name))/2 = 380. -/
theorem drawText_bytes_counterexample :
    (∀ c, (exFont.NewFace measureOptions).GlyphAdvance c = some (64 * 20)) ∧
    (∀ p c, (exFont.NewFace measureOptions).Kern p c = 0) ∧
    len "é" = 2 ∧
    (∃ s1,
      drawText exGenerator 2 "é" 505 exCanvasState = Exec.returned (none, s1) ∧
      (newEvents exCanvasState s1).filterMap Event.penStart = [("é", Pt 390 505)]) ∧
    Pt 390 505 ≠ Pt (Int.tdiv (800 - 20 * (len "é" : Int)) 2) 505 := by
  refine ⟨fun _ => rfl, fun _ _ => rfl, by decide, ?_, by decide⟩
  have hrun := drawText_run exGenerator 2 "é" 505 exCanvasState
    ⟨⟨⟨0, 0⟩, ⟨800, 1200⟩⟩, fun _ _ => ⟨0, 0, 0, 0⟩⟩ exFont rfl rfl 390 (by decide)
  refine ⟨_, hrun, ?_⟩
  rw [newEvents_append]
  simp [Event.penStart]


theorem In_iff (x y : Int) (r : Rectangle) :
    (Point.mk x y).In r = true ↔
      r.Min.X ≤ x ∧ x < r.Max.X ∧ r.Min.Y ≤ y ∧ y < r.Max.Y := by
  simp [Point.In, and_assoc]

theorem In_Intersect (x y : Int) (r s : Rectangle) :
    (Point.mk x y).In (r.Intersect s) = true ↔
      ((Point.mk x y).In r = true ∧ (Point.mk x y).In s = true) := by
  simp only [Rectangle.Intersect, Rectangle.Empty]
  split_ifs <;> simp only [In_iff, ZR] <;> simp_all <;> omega

theorem Intersect_Min (x y : Int) (r s : Rectangle)
    (h : (Point.mk x y).In (r.Intersect s) = true) :
    (r.Intersect s).Min.X = max r.Min.X s.Min.X ∧
    (r.Intersect s).Min.Y = max r.Min.Y s.Min.Y := by
  revert h
  simp only [Rectangle.Intersect, Rectangle.Empty]
  split_ifs <;> simp only [In_iff, ZR] <;> intro h <;> simp_all <;> omega

theorem Draw_Pix (d : ImageRGBA) (r : Rectangle) (src : Image) (sp : Point) (op : Op)
    (x y : Int) :
    (Draw d r src sp op).Pix x y =
      if (Point.mk x y).In (clip d.Rect r src.Bounds sp).1 then
        drawPixel op (d.Pix x y)
          (src.At
            (wrapInt ((clip d.Rect r src.Bounds sp).2.X +
              wrapInt (x - (clip d.Rect r src.Bounds sp).1.Min.X)))
            (wrapInt ((clip d.Rect r src.Bounds sp).2.Y +
              wrapInt (y - (clip d.Rect r src.Bounds sp).1.Min.Y))))
      else d.Pix x y := by
  simp only [Draw]
  split
  · rename_i hempty
    have hnot : (Point.mk x y).In (clip d.Rect r src.Bounds sp).1 = false := by
      rw [Bool.eq_false_iff]
      intro hin
      rw [In_iff] at hin
      simp only [Rectangle.Empty, Bool.or_eq_true, decide_eq_true_eq] at hempty
      omega
    rw [hnot]
    simp
  · rfl


theorem clip_spec (W H ax ay w h : Int)
    (hW : W < 9223372036854775808) (hH : H < 9223372036854775808)
    (hw : 0 ≤ w) (hh : 0 ≤ h) (hw2 : w < 9223372036854775808) (hh2 : h < 9223372036854775808)
    (hax : -4611686018427387904 ≤ ax) (hax2 : ax + w < 9223372036854775808)
    (hay : -4611686018427387904 ≤ ay) (hay2 : ay + h < 9223372036854775808)
    (x y : Int) :
    ((Point.mk x y).In
        (clip ⟨⟨0, 0⟩, ⟨W, H⟩⟩ ⟨⟨ax, ay⟩, ⟨ax + w, ay + h⟩⟩ ⟨⟨0, 0⟩, ⟨w, h⟩⟩ ⟨0, 0⟩).1 = true ↔
      ((Point.mk x y).In ⟨⟨0, 0⟩, ⟨W, H⟩⟩ = true ∧
       (Point.mk x y).In ⟨⟨ax, ay⟩, ⟨ax + w, ay + h⟩⟩ = true)) ∧
    ((Point.mk x y).In
        (clip ⟨⟨0, 0⟩, ⟨W, H⟩⟩ ⟨⟨ax, ay⟩, ⟨ax + w, ay + h⟩⟩ ⟨⟨0, 0⟩, ⟨w, h⟩⟩ ⟨0, 0⟩).1 = true →
      wrapInt ((clip ⟨⟨0, 0⟩, ⟨W, H⟩⟩ ⟨⟨ax, ay⟩, ⟨ax + w, ay + h⟩⟩ ⟨⟨0, 0⟩, ⟨w, h⟩⟩ ⟨0, 0⟩).2.X +
        wrapInt (x - (clip ⟨⟨0, 0⟩, ⟨W, H⟩⟩ ⟨⟨ax, ay⟩, ⟨ax + w, ay + h⟩⟩
          ⟨⟨0, 0⟩, ⟨w, h⟩⟩ ⟨0, 0⟩).1.Min.X)) = x - ax ∧
      wrapInt ((clip ⟨⟨0, 0⟩, ⟨W, H⟩⟩ ⟨⟨ax, ay⟩, ⟨ax + w, ay + h⟩⟩ ⟨⟨0, 0⟩, ⟨w, h⟩⟩ ⟨0, 0⟩).2.Y +
        wrapInt (y - (clip ⟨⟨0, 0⟩, ⟨W, H⟩⟩ ⟨⟨ax, ay⟩, ⟨ax + w, ay + h⟩⟩
          ⟨⟨0, 0⟩, ⟨w, h⟩⟩ ⟨0, 0⟩).1.Min.Y)) = y - ay) := by
  have hadd : (Rectangle.mk ⟨0, 0⟩ ⟨w, h⟩).Add
      ((Rectangle.mk ⟨ax, ay⟩ ⟨ax + w, ay + h⟩).Min.Sub ⟨0, 0⟩) =
      ⟨⟨ax, ay⟩, ⟨ax + w, ay + h⟩⟩ := by
    simp only [Rectangle.Add, Point.Sub, sub_zero, zero_add]
    rw [wrapInt_eq (x := ax) (by omega) (by omega), wrapInt_eq (x := ay) (by omega) (by omega),
      wrapInt_eq (x := ax) (by omega) (by omega), wrapInt_eq (x := ay) (by omega) (by omega),
      wrapInt_eq (x := w + ax) (by omega) (by omega),
      wrapInt_eq (x := h + ay) (by omega) (by omega), add_comm w ax, add_comm h ay]
  have hfst : (clip ⟨⟨0, 0⟩, ⟨W, H⟩⟩ ⟨⟨ax, ay⟩, ⟨ax + w, ay + h⟩⟩ ⟨⟨0, 0⟩, ⟨w, h⟩⟩ ⟨0, 0⟩).1 =
      ((Rectangle.mk ⟨ax, ay⟩ ⟨ax + w, ay + h⟩).Intersect ⟨⟨0, 0⟩, ⟨W, H⟩⟩).Intersect
        ⟨⟨ax, ay⟩, ⟨ax + w, ay + h⟩⟩ := by
    simp only [clip]
    rw [hadd]
    split_ifs <;> rfl
  have hsnd : (clip ⟨⟨0, 0⟩, ⟨W, H⟩⟩ ⟨⟨ax, ay⟩, ⟨ax + w, ay + h⟩⟩ ⟨⟨0, 0⟩, ⟨w, h⟩⟩ ⟨0, 0⟩).2 =
      ⟨wrapInt ((((Rectangle.mk ⟨ax, ay⟩ ⟨ax + w, ay + h⟩).Intersect
          ⟨⟨0, 0⟩, ⟨W, H⟩⟩).Intersect ⟨⟨ax, ay⟩, ⟨ax + w, ay + h⟩⟩).Min.X - ax),
       wrapInt ((((Rectangle.mk ⟨ax, ay⟩ ⟨ax + w, ay + h⟩).Intersect
          ⟨⟨0, 0⟩, ⟨W, H⟩⟩).Intersect ⟨⟨ax, ay⟩, ⟨ax + w, ay + h⟩⟩).Min.Y - ay)⟩ := by
    simp only [clip]
    rw [hadd]
    split_ifs with hz
    · rw [hz.1, hz.2]
    · simp only [zero_add]
      congr 1 <;> exact wrapInt_eq (by unfold wrapInt; omega) (by unfold wrapInt; omega)
  rw [hfst, hsnd]
  constructor
  · rw [In_Intersect, In_Intersect]
    tauto
  · intro hin
    have hmin := Intersect_Min x y _ _ hin
    rw [In_Intersect] at hin
    have hmin1 := Intersect_Min x y _ _ hin.1
    rw [In_Intersect] at hin
    obtain ⟨⟨hr, hd⟩, -⟩ := hin
    rw [In_iff] at hr hd
    simp only at hr hd hmin hmin1
    dsimp only
    rw [hmin.1, hmin.2, hmin1.1, hmin1.2]
    have e1 : max (max ax 0) ax = max ax 0 := by omega
    have e2 : max (max ay 0) ay = max ay 0 := by omega
    rw [e1, e2]
    constructor
    · rw [wrapInt_eq (x := max ax 0 - ax) (by omega) (by omega),
        wrapInt_eq (x := x - max ax 0) (by omega) (by omega),
        wrapInt_eq (by omega) (by omega)]
      omega
    · rw [wrapInt_eq (x := max ay 0 - ay) (by omega) (by omega),
        wrapInt_eq (x := y - max ay 0) (by omega) (by omega),
        wrapInt_eq (by omega) (by omega)]
      omega


theorem u32_mul_m (sr : Nat) (h : sr ≤ 65535) : u32 (sr * 65535) / 65535 = sr := by
  have h1 : sr * 65535 % 4294967296 = sr * 65535 := Nat.mod_eq_of_lt (by omega)
  rw [u32, h1]
  exact Nat.mul_div_cancel _ (by decide)

theorem srcChannel_valid (sr : Nat) (h : sr ≤ 65535) : srcChannel sr = u8 (sr / 256) := by
  simp only [srcChannel]
  rw [u32_mul_m sr h]

theorem overChannel_full (dr sr : Nat) (h : sr ≤ 65535) :
    overChannel dr sr 65535 = u8 (sr / 256) := by
  have ha : u32 (u32 (65535 + 4294967296 - u32 (65535 * 65535) / 65535) * 257) = 0 := by
    decide
  have h0 : u32 (u32 0 + u32 (sr * 65535)) = u32 (sr * 65535) := by
    simp [u32]
  simp only [overChannel, ha, Nat.mul_zero, h0]
  rw [u32_mul_m sr h]

theorem drawPixel_Src (d : ColorRGBA) (s : Color) (h : s.Valid) :
    drawPixel Op.Src d s = toRGBA s := by
  obtain ⟨hA, hR, hG, hB⟩ := h
  simp only [drawPixel, toRGBA]
  rw [srcChannel_valid _ (by omega), srcChannel_valid _ (by omega),
    srcChannel_valid _ (by omega), srcChannel_valid _ (by omega)]

theorem drawPixel_Over_full (d : ColorRGBA) (s : Color) (h : s.Valid) (hfull : s.A = 65535) :
    drawPixel Op.Over d s = toRGBA s := by
  obtain ⟨hA, hR, hG, hB⟩ := h
  simp only [drawPixel, toRGBA, hfull]
  rw [overChannel_full _ _ (by omega), overChannel_full _ _ (by omega),
    overChannel_full _ _ (by omega), overChannel_full _ _ (by omega)]

theorem toRGBA_full (s : Color) (hfull : s.A = 65535) : (toRGBA s).A = 255 := by
  simp [toRGBA, hfull, u8]

/-- C4. After the compositing statements of `Generate` (the fetch up to the
second `draw.Draw`, before the text), for a background at the origin whose
pixels are well-formed and of full alpha: the canvas has the bounds of the
background; every canvas pixel outside the avatar rectangle is the background
pixel at the same coordinates converted to 8-bit RGBA, with alpha 255; every
canvas pixel inside it is the `Over` blend of the resized-avatar pixel at the
same offset from the rectangle's corner on that background pixel, which is the
avatar pixel itself (converted to 8-bit RGBA) wherever the avatar pixel is
well-formed with full alpha. -/
theorem composite_canvas (env : Env) (g : Generator) (url : String) (s : State)
    (av bg : Image) (W H : Nat)
    (hserved : Served env url av)
    (hres : (env.Resize 150 150 av).Bounds = ⟨⟨0, 0⟩, ⟨150, 150⟩⟩)
    (hbg : s.heap[g.background]? = some (Obj.image bg))
    (hB : bg.Bounds = ⟨⟨0, 0⟩, ⟨(W : Int), (H : Int)⟩⟩)
    (hW : W < 9223372036854775808) (hH : H < 9223372036854775808)
    (hnew : (NewRGBA bg.Bounds).isSome = true)
    (hwf : bg.WellFormed) (hfull : bg.FullAlpha) :
    ∃ r s1 canvas,
      composite env g url s = Exec.returned (Except.ok r, s1) ∧
      s1.heap[r.1]? = some (Obj.rgba canvas) ∧
      canvas.Rect = bg.Bounds ∧
      ∀ x y : Int, (Point.mk x y).In bg.Bounds = true →
        ((Point.mk x y).In
            ⟨⟨Int.tdiv ((W : Int) - 150) 2, Int.tdiv (H : Int) 3 - 75⟩,
             ⟨Int.tdiv ((W : Int) - 150) 2 + 150, Int.tdiv (H : Int) 3 - 75 + 150⟩⟩ = false →
          canvas.Pix x y = toRGBA (bg.At x y) ∧ (canvas.Pix x y).A = 255) ∧
        ((Point.mk x y).In
            ⟨⟨Int.tdiv ((W : Int) - 150) 2, Int.tdiv (H : Int) 3 - 75⟩,
             ⟨Int.tdiv ((W : Int) - 150) 2 + 150, Int.tdiv (H : Int) 3 - 75 + 150⟩⟩ = true →
          canvas.Pix x y =
            drawPixel Op.Over (toRGBA (bg.At x y))
              ((env.Resize 150 150 av).At (x - Int.tdiv ((W : Int) - 150) 2)
                (y - (Int.tdiv (H : Int) 3 - 75))) ∧
          (((env.Resize 150 150 av).At (x - Int.tdiv ((W : Int) - 150) 2)
                (y - (Int.tdiv (H : Int) 3 - 75))).Valid →
            ((env.Resize 150 150 av).At (x - Int.tdiv ((W : Int) - 150) 2)
                (y - (Int.tdiv (H : Int) 3 - 75))).A = 65535 →
            canvas.Pix x y =
              toRGBA ((env.Resize 150 150 av).At (x - Int.tdiv ((W : Int) - 150) 2)
                (y - (Int.tdiv (H : Int) 3 - 75))))) := by
  obtain ⟨c0, hc0⟩ := Option.isSome_iff_exists.mp hnew
  obtain ⟨hc0eq, -, -, -⟩ := NewRGBA_some hc0
  have hDx : bg.Bounds.Dx = W := by rw [hB]; exact Dx_origin W H hW
  have hDy : bg.Bounds.Dy = H := by rw [hB]; exact Dy_origin W H hH
  have hrDx : (env.Resize 150 150 av).Bounds.Dx = 150 := by rw [hres]; decide
  have hrDy : (env.Resize 150 150 av).Bounds.Dy = 150 := by rw [hres]; decide
  have hxb := avatarX_bounds W hW
  have hyb := avatarY_bounds H hH
  have hrun := composite_served env g url s av bg c0 hserved hbg hc0
    (Int.tdiv ((W : Int) - 150) 2) (Int.tdiv (H : Int) 3 - 75)
    ⟨⟨Int.tdiv ((W : Int) - 150) 2, Int.tdiv (H : Int) 3 - 75⟩,
     ⟨Int.tdiv ((W : Int) - 150) 2 + 150, Int.tdiv (H : Int) 3 - 75 + 150⟩⟩
    (by rw [hDx, hrDx, avatarX_eq W hW])
    (by rw [hDy, hrDy, avatarY_eq H hH])
    (by rw [hrDx, hrDy, avatarRect_eq W H hW hH])
  refine ⟨_, _, _, hrun, heap_at2 _ _ _ _ _, ?_, ?_⟩
  · rw [Draw_Rect, Draw_Rect, hc0eq]
  · intro x y hin
    have hc1 := clip_spec W H 0 0 W H (by omega) (by omega) (by omega) (by omega)
      (by omega) (by omega) (by omega) (by omega) (by omega) (by omega) x y
    simp only [zero_add, sub_zero] at hc1
    have hc2 := clip_spec W H (Int.tdiv ((W : Int) - 150) 2) (Int.tdiv (H : Int) 3 - 75)
      150 150 (by omega) (by omega) (by omega) (by omega) (by omega) (by omega)
      (by omega) (by omega) (by omega) (by omega) x y
    have hrect1 : (Draw c0 bg.Bounds bg ⟨0, 0⟩ Op.Src).Rect =
        ⟨⟨0, 0⟩, ⟨(W : Int), (H : Int)⟩⟩ := by
      rw [Draw_Rect, hc0eq, hB]
    rw [hB] at hin
    have hin1 : (Point.mk x y).In
        (clip ⟨⟨0, 0⟩, ⟨(W : Int), (H : Int)⟩⟩ ⟨⟨0, 0⟩, ⟨(W : Int), (H : Int)⟩⟩
          ⟨⟨0, 0⟩, ⟨(W : Int), (H : Int)⟩⟩ ⟨0, 0⟩).1 = true := hc1.1.mpr ⟨hin, hin⟩
    have hd1 : (Draw c0 bg.Bounds bg ⟨0, 0⟩ Op.Src).Pix x y = toRGBA (bg.At x y) := by
      rw [Draw_Pix, hc0eq, hB]
      simp only
      rw [if_pos hin1, (hc1.2 hin1).1, (hc1.2 hin1).2, drawPixel_Src _ _ (hwf x y)]
    constructor
    · intro hout
      have hnot : (Point.mk x y).In
          (clip ⟨⟨0, 0⟩, ⟨(W : Int), (H : Int)⟩⟩
            ⟨⟨Int.tdiv ((W : Int) - 150) 2, Int.tdiv (H : Int) 3 - 75⟩,
             ⟨Int.tdiv ((W : Int) - 150) 2 + 150, Int.tdiv (H : Int) 3 - 75 + 150⟩⟩
            ⟨⟨0, 0⟩, ⟨150, 150⟩⟩ ⟨0, 0⟩).1 = false := by
        rw [Bool.eq_false_iff]
        intro hc
        rw [(hc2.1.mp hc).2] at hout
        exact Bool.noConfusion hout
      have hpix : (Draw (Draw c0 bg.Bounds bg ⟨0, 0⟩ Op.Src)
          ⟨⟨Int.tdiv ((W : Int) - 150) 2, Int.tdiv (H : Int) 3 - 75⟩,
           ⟨Int.tdiv ((W : Int) - 150) 2 + 150, Int.tdiv (H : Int) 3 - 75 + 150⟩⟩
          (env.Resize 150 150 av) ⟨0, 0⟩ Op.Over).Pix x y = toRGBA (bg.At x y) := by
        rw [Draw_Pix, hrect1, hres, hnot]
        simpa using hd1
      exact ⟨hpix, by rw [hpix]; exact toRGBA_full _ (hfull x y)⟩
    · intro hinr
      have hin2 := hc2.1.mpr ⟨hin, hinr⟩
      have hpix : (Draw (Draw c0 bg.Bounds bg ⟨0, 0⟩ Op.Src)
          ⟨⟨Int.tdiv ((W : Int) - 150) 2, Int.tdiv (H : Int) 3 - 75⟩,
           ⟨Int.tdiv ((W : Int) - 150) 2 + 150, Int.tdiv (H : Int) 3 - 75 + 150⟩⟩
          (env.Resize 150 150 av) ⟨0, 0⟩ Op.Over).Pix x y =
          drawPixel Op.Over (toRGBA (bg.At x y))
            ((env.Resize 150 150 av).At (x - Int.tdiv ((W : Int) - 150) 2)
              (y - (Int.tdiv (H : Int) 3 - 75))) := by
        rw [Draw_Pix, hrect1, hres, if_pos hin2, (hc2.2 hin2).1, (hc2.2 hin2).2, hd1]
      refine ⟨hpix, fun hv ha => ?_⟩
      rw [hpix, drawPixel_Over_full _ _ hv ha]


/-- The pixels of the canvas after the two `draw.Draw` calls of `Generate`,
for a background at the origin and a source of 150×150 at the origin. -/
theorem composite_pixel (bg rv : Image) (W H : Nat)
    (hB : bg.Bounds = ⟨⟨0, 0⟩, ⟨(W : Int), (H : Int)⟩⟩)
    (hres : rv.Bounds = ⟨⟨0, 0⟩, ⟨150, 150⟩⟩)
    (hW : W < 9223372036854775808) (hH : H < 9223372036854775808)
    (x y : Int) (hin : (Point.mk x y).In bg.Bounds = true) :
    (Draw (Draw ⟨bg.Bounds, fun _ _ => ⟨0, 0, 0, 0⟩⟩ bg.Bounds bg ⟨0, 0⟩ Op.Src)
        ⟨⟨Int.tdiv ((W : Int) - 150) 2, Int.tdiv (H : Int) 3 - 75⟩,
         ⟨Int.tdiv ((W : Int) - 150) 2 + 150, Int.tdiv (H : Int) 3 - 75 + 150⟩⟩
        rv ⟨0, 0⟩ Op.Over).Pix x y =
      if (Point.mk x y).In
          ⟨⟨Int.tdiv ((W : Int) - 150) 2, Int.tdiv (H : Int) 3 - 75⟩,
           ⟨Int.tdiv ((W : Int) - 150) 2 + 150, Int.tdiv (H : Int) 3 - 75 + 150⟩⟩ then
        drawPixel Op.Over (drawPixel Op.Src ⟨0, 0, 0, 0⟩ (bg.At x y))
          (rv.At (x - Int.tdiv ((W : Int) - 150) 2) (y - (Int.tdiv (H : Int) 3 - 75)))
      else drawPixel Op.Src ⟨0, 0, 0, 0⟩ (bg.At x y) := by
  have hxb := avatarX_bounds W hW
  have hyb := avatarY_bounds H hH
  have hc1 := clip_spec W H 0 0 W H (by omega) (by omega) (by omega) (by omega)
    (by omega) (by omega) (by omega) (by omega) (by omega) (by omega) x y
  simp only [zero_add, sub_zero] at hc1
  have hc2 := clip_spec W H (Int.tdiv ((W : Int) - 150) 2) (Int.tdiv (H : Int) 3 - 75)
    150 150 (by omega) (by omega) (by omega) (by omega) (by omega) (by omega)
    (by omega) (by omega) (by omega) (by omega) x y
  have hrect1 : (Draw ⟨bg.Bounds, fun _ _ => ⟨0, 0, 0, 0⟩⟩ bg.Bounds bg ⟨0, 0⟩ Op.Src).Rect =
      ⟨⟨0, 0⟩, ⟨(W : Int), (H : Int)⟩⟩ := by
    rw [Draw_Rect, hB]
  rw [hB] at hin
  have hin1 : (Point.mk x y).In
      (clip ⟨⟨0, 0⟩, ⟨(W : Int), (H : Int)⟩⟩ ⟨⟨0, 0⟩, ⟨(W : Int), (H : Int)⟩⟩
        ⟨⟨0, 0⟩, ⟨(W : Int), (H : Int)⟩⟩ ⟨0, 0⟩).1 = true := hc1.1.mpr ⟨hin, hin⟩
  have hd1 : (Draw ⟨bg.Bounds, fun _ _ => ⟨0, 0, 0, 0⟩⟩ bg.Bounds bg ⟨0, 0⟩ Op.Src).Pix x y =
      drawPixel Op.Src ⟨0, 0, 0, 0⟩ (bg.At x y) := by
    rw [Draw_Pix, hB]
    simp only
    rw [if_pos hin1, (hc1.2 hin1).1, (hc1.2 hin1).2]
  rw [Draw_Pix, hrect1, hres]
  by_cases hinr : (Point.mk x y).In
      ⟨⟨Int.tdiv ((W : Int) - 150) 2, Int.tdiv (H : Int) 3 - 75⟩,
       ⟨Int.tdiv ((W : Int) - 150) 2 + 150, Int.tdiv (H : Int) 3 - 75 + 150⟩⟩ = true
  · have hin2 := hc2.1.mpr ⟨hin, hinr⟩
    rw [if_pos hin2, if_pos hinr, (hc2.2 hin2).1, (hc2.2 hin2).2, hd1]
  · have hnot : ¬ (Point.mk x y).In
        (clip ⟨⟨0, 0⟩, ⟨(W : Int), (H : Int)⟩⟩
          ⟨⟨Int.tdiv ((W : Int) - 150) 2, Int.tdiv (H : Int) 3 - 75⟩,
           ⟨Int.tdiv ((W : Int) - 150) 2 + 150, Int.tdiv (H : Int) 3 - 75 + 150⟩⟩
          ⟨⟨0, 0⟩, ⟨150, 150⟩⟩ ⟨0, 0⟩).1 = true := fun hc => hinr (hc2.1.mp hc).2
    rw [if_neg hnot, if_neg hinr, hd1]

theorem drawGlyphs_Pix (r : Rectangle) (src : Color) (d : ImageRGBA)
    (cover : Int → Int → List Nat) (x y : Int)
    (hr : (Point.mk x y).In r = true) (hd : (Point.mk x y).In d.Rect = true) :
    (drawGlyphs r src d cover).Pix x y = (cover x y).foldl (glyphOver src) (d.Pix x y) := by
  simp [drawGlyphs, hr, hd]


/-- C1. For a background at the origin of width `W` and height `H` and a
resized avatar of 150×150, `Generate` returns, and its only `draw.Over` call
draws the resized avatar, from its point (0,0), into the rectangle with top-left
corner `((W-150)/2, H/3-75)` and size 150×150 of the output image, the
divisions truncating toward zero.  The pixels say the same: in the canvas the
run leaves, every pixel inside that rectangle is the `Over` blend of the
avatar pixel at the same offset from the corner on the copied background
pixel, every pixel outside it is the copied background pixel, and on top of
either come only the glyph coverages of the text that reach the pixel. -/
theorem generate_draws_avatar_at (env : Env) (g : Generator) (name url : String) (s : State)
    (av bg : Image) (f : Font) (W H : Nat)
    (hserved : Served env url av)
    (hres : (env.Resize 150 150 av).Bounds = ⟨⟨0, 0⟩, ⟨150, 150⟩⟩)
    (hbg : s.heap[g.background]? = some (Obj.image bg))
    (hfont : s.heap[g.font]? = some (Obj.font f))
    (hB : bg.Bounds = ⟨⟨0, 0⟩, ⟨(W : Int), (H : Int)⟩⟩)
    (hW : W < 9223372036854775808) (hH : H < 9223372036854775808)
    (hnew : (NewRGBA bg.Bounds).isSome = true) :
    ∃ r s1 canvas,
      Generate env g name url s = Exec.returned (r, s1) ∧
      (newEvents s s1).filterMap Event.overDraw =
        [(s.heap.length + 2,
          ⟨⟨Int.tdiv ((W : Int) - 150) 2, Int.tdiv (H : Int) 3 - 75⟩,
           ⟨Int.tdiv ((W : Int) - 150) 2 + 150, Int.tdiv (H : Int) 3 - 75 + 150⟩⟩,
          s.heap.length + 1, ⟨0, 0⟩)] ∧
      s1.heap[s.heap.length + 1]? = some (Obj.image (env.Resize 150 150 av)) ∧
      s1.heap[s.heap.length + 2]? = some (Obj.rgba canvas) ∧
      canvas.Rect = bg.Bounds ∧
      ∀ x y : Int, (Point.mk x y).In bg.Bounds = true →
        canvas.Pix x y =
          ((f.Glyphs 72 36 Hinting.HintingFull name
              (Pt (Int.tdiv ((W : Int) -
                  Ceil (MeasureString (f.NewFace measureOptions) name)) 2)
                (Int.tdiv (H : Int) 3 - 75 + 150 + 30))).1 x y).foldl (glyphOver White)
            (if (Point.mk x y).In
                ⟨⟨Int.tdiv ((W : Int) - 150) 2, Int.tdiv (H : Int) 3 - 75⟩,
                 ⟨Int.tdiv ((W : Int) - 150) 2 + 150,
                  Int.tdiv (H : Int) 3 - 75 + 150⟩⟩ then
              drawPixel Op.Over (drawPixel Op.Src ⟨0, 0, 0, 0⟩ (bg.At x y))
                ((env.Resize 150 150 av).At (x - Int.tdiv ((W : Int) - 150) 2)
                  (y - (Int.tdiv (H : Int) 3 - 75)))
            else drawPixel Op.Src ⟨0, 0, 0, 0⟩ (bg.At x y)) := by
  obtain ⟨r, c3, tail, hrun, hrect, htail, hc3⟩ :=
    Generate_poster env g name url s av bg f W H hserved hres hbg hfont hB hW hH hnew
  refine ⟨r, _, c3, hrun, ?_, heap_at1 _ _ _ _, heap_at2 _ _ _ _ _, hrect, ?_⟩
  · rw [newEvents_append]
    rcases htail with h | h | h <;> subst h <;> simp [Event.overDraw]
  · intro x y hin
    rw [hc3, drawGlyphs_Pix _ _ _ _ x y hin (by rw [Draw_Rect, Draw_Rect]; exact hin),
      composite_pixel bg (env.Resize 150 150 av) W H hB hres hW hH x y hin]

/-- The scenario of the specification: background 800×1200 gives the avatar
rectangle with corner (325, 325), a pixel inside it has the colour of the
avatar and a pixel outside it the colour of the background; and a background
of width 149 gives the corner x = 0, the quotient (149-150)/2 being truncated
toward zero. -/
theorem generate_draws_avatar_at_witness :
    (∃ r s1 canvas,
      Generate exEnv exGenerator "Ada" "https://example.com/ada.png" exState =
        Exec.returned (r, s1) ∧
      (newEvents exState s1).filterMap Event.overDraw =
        [(4, ⟨⟨325, 325⟩, ⟨475, 475⟩⟩, 3, ⟨0, 0⟩)] ∧
      s1.heap[4]? = some (Obj.rgba canvas) ∧
      canvas.Rect = ⟨⟨0, 0⟩, ⟨800, 1200⟩⟩ ∧
      canvas.Pix 325 325 = ⟨255, 0, 0, 255⟩ ∧
      canvas.Pix 474 474 = ⟨255, 0, 0, 255⟩ ∧
      canvas.Pix 324 325 = ⟨32, 64, 96, 255⟩ ∧
      canvas.Pix 475 474 = ⟨32, 64, 96, 255⟩) ∧
    (∃ r s1 canvas,
      Generate exEnv exGenerator "Ada" "https://example.com/ada.png" exNarrowState =
        Exec.returned (r, s1) ∧
      (newEvents exNarrowState s1).filterMap Event.overDraw =
        [(4, ⟨⟨0, 325⟩, ⟨150, 475⟩⟩, 3, ⟨0, 0⟩)] ∧
      s1.heap[4]? = some (Obj.rgba canvas) ∧
      canvas.Rect = ⟨⟨0, 0⟩, ⟨149, 1200⟩⟩ ∧
      canvas.Pix 0 325 = ⟨255, 0, 0, 255⟩ ∧
      canvas.Pix 0 324 = ⟨32, 64, 96, 255⟩) := by
  constructor
  · obtain ⟨r, s1, canvas, h1, h2, -, h4, h5, h6⟩ :=
      generate_draws_avatar_at exEnv exGenerator "Ada" "https://example.com/ada.png" exState
        exAvatar exBackground exFont 800 1200 ⟨5, _, 7, _, rfl, rfl, rfl, rfl⟩ rfl rfl rfl rfl
        (by decide) (by decide) rfl
    refine ⟨r, s1, canvas, h1, h2, h4, h5, ?_, ?_, ?_, ?_⟩
    · rw [h6 325 325 (by decide)]; decide
    · rw [h6 474 474 (by decide)]; decide
    · rw [h6 324 325 (by decide)]; decide
    · rw [h6 475 474 (by decide)]; decide
  · obtain ⟨r, s1, canvas, h1, h2, -, h4, h5, h6⟩ :=
      generate_draws_avatar_at exEnv exGenerator "Ada" "https://example.com/ada.png"
        exNarrowState exAvatar exNarrowBackground exFont 149 1200
        ⟨5, _, 7, _, rfl, rfl, rfl, rfl⟩ rfl rfl rfl rfl (by decide) (by decide) rfl
    refine ⟨r, s1, canvas, h1, h2, h4, h5, ?_, ?_⟩
    · rw [h6 0 325 (by decide)]; decide
    · rw [h6 0 324 (by decide)]; decide

/-- C2. Under the same conditions the only `drawText` call of `Generate` is
on the output image with baseline `(H/3 - 75) + 150 + 30`: the bottom edge of
the avatar plus 30. -/
theorem generate_text_baseline (env : Env) (g : Generator) (name url : String) (s : State)
    (av bg : Image) (f : Font) (W H : Nat)
    (hserved : Served env url av)
    (hres : (env.Resize 150 150 av).Bounds = ⟨⟨0, 0⟩, ⟨150, 150⟩⟩)
    (hbg : s.heap[g.background]? = some (Obj.image bg))
    (hfont : s.heap[g.font]? = some (Obj.font f))
    (hB : bg.Bounds = ⟨⟨0, 0⟩, ⟨(W : Int), (H : Int)⟩⟩)
    (hW : W < 9223372036854775808) (hH : H < 9223372036854775808)
    (hnew : (NewRGBA bg.Bounds).isSome = true) :
    ∃ r s1,
      Generate env g name url s = Exec.returned (r, s1) ∧
      (newEvents s s1).filterMap Event.textCall =
        [(s.heap.length + 2, Int.tdiv (H : Int) 3 - 75 + 150 + 30)] ∧
      (newEvents s s1).filterMap Event.overDraw =
        [(s.heap.length + 2,
          ⟨⟨Int.tdiv ((W : Int) - 150) 2, Int.tdiv (H : Int) 3 - 75⟩,
           ⟨Int.tdiv ((W : Int) - 150) 2 + 150, Int.tdiv (H : Int) 3 - 75 + 150⟩⟩,
          s.heap.length + 1, ⟨0, 0⟩)] := by
  obtain ⟨r, c3, tail, hrun, -, htail, -⟩ :=
    Generate_poster env g name url s av bg f W H hserved hres hbg hfont hB hW hH hnew
  refine ⟨r, _, hrun, ?_, ?_⟩ <;> rw [newEvents_append] <;>
    rcases htail with h | h | h <;> subst h <;> simp [Event.textCall, Event.overDraw]

/-- The scenario of the specification: height 1200 gives the baseline 505. -/
theorem generate_text_baseline_witness :
    ∃ r s1,
      Generate exEnv exGenerator "Ada" "https://example.com/ada.png" exState =
        Exec.returned (r, s1) ∧
      (newEvents exState s1).filterMap Event.textCall = [(4, 505)] ∧
      (newEvents exState s1).filterMap Event.overDraw =
        [(4, ⟨⟨325, 325⟩, ⟨475, 475⟩⟩, 3, ⟨0, 0⟩)] :=
  generate_text_baseline exEnv exGenerator "Ada" "https://example.com/ada.png" exState
    exAvatar exBackground exFont 800 1200 ⟨5, _, 7, _, rfl, rfl, rfl, rfl⟩ rfl rfl rfl rfl
    (by decide) (by decide) rfl


theorem composite_canvas_witness :
    ∃ r s1 canvas,
      composite exEnv exGenerator "https://example.com/ada.png" exState =
        Exec.returned (Except.ok r, s1) ∧
      s1.heap[r.1]? = some (Obj.rgba canvas) ∧
      canvas.Pix 10 10 = ⟨32, 64, 96, 255⟩ ∧
      canvas.Pix 400 400 = ⟨255, 0, 0, 255⟩ := by
  obtain ⟨r, s1, canvas, h1, h2, -, h4⟩ :=
    composite_canvas exEnv exGenerator "https://example.com/ada.png" exState
      exAvatar exBackground 800 1200 ⟨5, _, 7, _, rfl, rfl, rfl, rfl⟩ rfl rfl rfl
      (by decide) (by decide) rfl
      (fun _ _ => (by decide : (Color.mk 8224 16448 24672 65535).Valid)) (fun _ _ => rfl)
  refine ⟨r, s1, canvas, h1, h2, ?_, ?_⟩
  · rw [((h4 10 10 (by decide)).1 (by decide)).1]
    decide
  · rw [((h4 400 400 (by decide)).2 (by decide)).2 (by decide) rfl]
    decide


theorem b64Val_b64Char : ∀ n, n < 64 → b64Val (b64Char n) = some n := by
  decide

theorem b64Char_ne_pad : ∀ n, n < 64 → b64Char n ≠ '=' := by
  decide

theorem Fin_ofNat_val (a : Byte) (n : Nat) (h : n = a.val) : (Fin.ofNat n : Byte) = a := by
  apply Fin.ext
  simp only [Fin.ofNat, h]
  exact Nat.mod_eq_of_lt a.isLt

theorem decodeChars_encodeChars (bs : List Byte) : decodeChars (encodeChars bs) = some bs := by
  induction bs using encodeChars.induct with
  | case1 => simp [encodeChars, decodeChars]
  | case2 a =>
    have ha := a.isLt
    simp only [encodeChars, decodeChars]
    rw [b64Val_b64Char _ (by omega), b64Val_b64Char _ (by omega)]
    simp only [and_self, if_true]
    rw [Fin_ofNat_val a _ (by omega)]
  | case3 a b =>
    have ha := a.isLt
    have hb := b.isLt
    simp only [encodeChars, decodeChars]
    rw [b64Val_b64Char _ (by omega), b64Val_b64Char _ (by omega),
      b64Val_b64Char _ (by omega)]
    simp only [b64Char_ne_pad _ (show b.val % 16 * 4 < 64 by omega), false_and, if_false,
      and_self, if_true]
    rw [Fin_ofNat_val a _ (by omega), Fin_ofNat_val b _ (by omega)]
  | case4 a b c rest ih =>
    have ha := a.isLt
    have hb := b.isLt
    have hc := c.isLt
    simp only [encodeChars, decodeChars]
    rw [b64Val_b64Char _ (by omega), b64Val_b64Char _ (by omega),
      b64Val_b64Char _ (by omega), b64Val_b64Char _ (by omega)]
    simp only [b64Char_ne_pad _ (show b.val % 16 * 4 + c.val / 64 < 64 by omega),
      b64Char_ne_pad _ (show c.val % 64 < 64 by omega), false_and, if_false, ih]
    rw [Fin_ofNat_val a _ (by omega), Fin_ofNat_val b _ (by omega),
      Fin_ofNat_val c _ (by omega)]

theorem DecodeString_EncodeToString (bs : List Byte) :
    DecodeString (EncodeToString bs) = some bs :=
  decodeChars_encodeChars bs


theorem Generate_fetch_error (env : Env) (g : Generator) (name url : String) (s s1 : State)
    (err : Error)
    (h : fetchImage env url { heap := s.heap, trace := s.trace ++ [Event.Generate name url] } =
      Exec.returned (Except.error err, s1)) :
    Generate env g name url s =
      Exec.returned (("", some (Error.wrap "failed to fetch avatar" err)), s1) := by
  simp [Generate, composite, M.bind, emit, h]

theorem Generate_fetch_blocked (env : Env) (g : Generator) (name url : String) (s : State)
    (h : fetchImage env url { heap := s.heap, trace := s.trace ++ [Event.Generate name url] } =
      Exec.blocked) :
    Generate env g name url s = Exec.blocked := by
  simp [Generate, composite, M.bind, emit, h]

theorem Generate_alloc_panic (env : Env) (g : Generator) (name url : String) (s : State)
    (av bg : Image)
    (hserved : Served env url av)
    (hbg : s.heap[g.background]? = some (Obj.image bg))
    (hnew : NewRGBA bg.Bounds = none) :
    Generate env g name url s = Exec.panicked := by
  obtain ⟨t, resp, t2, bytes, hnet, hs, hb, hdec⟩ := hserved
  have hlt : g.background < s.heap.length := lt_of_getElem?_eq_some hbg
  simp [Generate, composite, M.bind, emit,
    fetchImage_ok env url _ t t2 resp bytes av hnet hs hb hdec,
    resizeResize, loadImage, alloc, imageBounds, imageNewRGBA, hnew, goPanic, avatarSize,
    List.getElem?_append_left, heap_at0, hlt, hbg, -List.getElem?_eq_getElem]

/-- Every returning run of `Generate`, for a generator whose background and
font are in the heap: either the fetch failed and nothing else ran, or the
avatar was served and the run went through the text, then to the encoder if
the text succeeded. -/
theorem Generate_cases (env : Env) (g : Generator) (name url : String) (s : State)
    (bg : Image) (f : Font)
    (hbg : s.heap[g.background]? = some (Obj.image bg))
    (hfont : s.heap[g.font]? = some (Obj.font f))
    (r : String × Option Error) (s1 : State)
    (hrun : Generate env g name url s = Exec.returned (r, s1)) :
    (∃ err evs, r = ("", some (Error.wrap "failed to fetch avatar" err)) ∧
      fetchImage env url { heap := s.heap, trace := s.trace ++ [Event.Generate name url] } =
        Exec.returned (Except.error err, s1) ∧
      s1 = { heap := s.heap,
             trace := s.trace ++ (Event.Generate name url :: Event.fetchImage url ::
               Event.httpGet url :: evs) } ∧
      (evs = [] ∨ evs = [Event.bodyClose])) ∨
    (∃ av c3 textErr aRect p y, Served env url av ∧ c3.Rect = bg.Bounds ∧
      textErr = (f.Glyphs 72 36 Hinting.HintingFull name p).2 ∧
      r = finishResult textErr (env.pngEncode c3) ∧
      s1 = { heap := s.heap ++ [Obj.image av, Obj.image (env.Resize 150 150 av), Obj.rgba c3],
             trace := s.trace ++ [Event.Generate name url, Event.fetchImage url,
               Event.httpGet url, Event.bodyClose,
               Event.resize 150 150 s.heap.length, Event.newRGBA bg.Bounds,
               Event.draw (s.heap.length + 2) bg.Bounds g.background ⟨0, 0⟩ Op.Src,
               Event.draw (s.heap.length + 2) aRect (s.heap.length + 1) ⟨0, 0⟩ Op.Over,
               Event.drawText (s.heap.length + 2) name y,
               Event.drawString (s.heap.length + 2) name p] ++
               finishEvents (s.heap.length + 2) textErr (env.pngEncode c3) }) := by
  cases hnet : env.net url with
  | fails err =>
    left
    have h := Generate_fetch_error env g name url s _ err
      (fetchImage_fails env url _ err hnet)
    rw [h] at hrun
    simp only [Exec.returned.injEq, Prod.mk.injEq] at hrun
    refine ⟨err, [], hrun.1.symm, ?_, ?_, Or.inl rfl⟩
    · rw [← hrun.2]
      exact fetchImage_fails env url _ err hnet
    · rw [← hrun.2]
      simp
  | never =>
    rw [Generate_fetch_blocked env g name url s (fetchImage_never env url _ hnet)] at hrun
    cases hrun
  | answers t resp =>
    by_cases hs : resp.StatusCode = 200
    · cases hb : resp.Body with
      | stalls =>
        rw [Generate_fetch_blocked env g name url s
          (fetchImage_stalls env url _ t resp hnet hs hb)] at hrun
        cases hrun
      | fails err =>
        left
        have h := Generate_fetch_error env g name url s _ err
          (fetchImage_read_fails env url _ t resp err hnet hs hb)
        rw [h] at hrun
        simp only [Exec.returned.injEq, Prod.mk.injEq] at hrun
        refine ⟨err, [Event.bodyClose], hrun.1.symm, ?_, ?_, Or.inr rfl⟩
        · rw [← hrun.2]
          exact fetchImage_read_fails env url _ t resp err hnet hs hb
        · rw [← hrun.2]
          simp
      | data t2 bytes =>
        cases hd : env.Decode bytes with
        | error err =>
          left
          have h := Generate_fetch_error env g name url s _ err
            (fetchImage_decode_fails env url _ t t2 resp bytes err hnet hs hb hd)
          rw [h] at hrun
          simp only [Exec.returned.injEq, Prod.mk.injEq] at hrun
          refine ⟨err, [Event.bodyClose], hrun.1.symm, ?_, ?_, Or.inr rfl⟩
          · rw [← hrun.2]
            exact fetchImage_decode_fails env url _ t t2 resp bytes err hnet hs hb hd
          · rw [← hrun.2]
            simp
        | ok av =>
          right
          have hserved : Served env url av := ⟨t, resp, t2, bytes, hnet, hs, hb, hd⟩
          cases hnew : NewRGBA bg.Bounds with
          | none =>
            rw [Generate_alloc_panic env g name url s av bg hserved hbg hnew] at hrun
            cases hrun
          | some c0 =>
            have h := Generate_run env g name url s av bg c0 f hserved hbg hfont hnew
              _ _ _ rfl rfl rfl _ rfl _ _ rfl rfl _ _ rfl _ rfl
            rw [h] at hrun
            simp only [Exec.returned.injEq, Prod.mk.injEq] at hrun
            refine ⟨av, _, _, _, _, _, hserved, ?_, rfl, hrun.1.symm, hrun.2.symm⟩
            show (drawGlyphs _ _ _ _).Rect = bg.Bounds
            simp only [drawGlyphs]
            rw [Draw_Rect, Draw_Rect, (NewRGBA_some hnew).1]
    · left
      have h := Generate_fetch_error env g name url s _ _
        (fetchImage_status env url _ t resp hnet hs)
      rw [h] at hrun
      simp only [Exec.returned.injEq, Prod.mk.injEq] at hrun
      refine ⟨_, [Event.bodyClose], hrun.1.symm, ?_, ?_, Or.inr rfl⟩
      · rw [← hrun.2]
        exact fetchImage_status env url _ t resp hnet hs
      · rw [← hrun.2]
        simp


theorem finishResult_ok {textErr : Option String} {enc : Except Error (List Byte)}
    {out : String} (h : finishResult textErr enc = (out, none)) :
    textErr = none ∧ ∃ buf, enc = Except.ok buf ∧ out = EncodeToString buf := by
  cases textErr with
  | some msg => simp [finishResult] at h
  | none =>
    cases enc with
    | error err => simp [finishResult] at h
    | ok buf =>
      simp only [finishResult, Prod.mk.injEq, and_true] at h
      exact ⟨rfl, buf, rfl, h.symm⟩

/-- C5. For every successful call of `Generate`, base64-decoding the returned
string gives the bytes the PNG encoder produced for the canvas, and decoding
them with any decoder that reads back the width and height the encoder was
given yields a raster whose width and height are those of the background
image. -/
theorem generate_output_dimensions (env : Env) (g : Generator) (name url : String)
    (s : State) (bg : Image) (f : Font)
    (hbg : s.heap[g.background]? = some (Obj.image bg))
    (hfont : s.heap[g.font]? = some (Obj.font f))
    (out : String) (s1 : State)
    (hrun : Generate env g name url s = Exec.returned ((out, none), s1))
    (pngDecode : List Byte → Except Error Image)
    (hpng : ∀ (m : ImageRGBA) (bytes : List Byte), env.pngEncode m = Except.ok bytes →
      ∃ img, pngDecode bytes = Except.ok img ∧
        img.Bounds.Dx = m.Rect.Dx ∧ img.Bounds.Dy = m.Rect.Dy) :
    ∃ bytes img,
      DecodeString out = some bytes ∧ pngDecode bytes = Except.ok img ∧
      img.Bounds.Dx = bg.Bounds.Dx ∧ img.Bounds.Dy = bg.Bounds.Dy := by
  rcases Generate_cases env g name url s bg f hbg hfont _ _ hrun with
    ⟨err, evs, hr, -⟩ | ⟨av, c3, textErr, aRect, p, y, -, hrect, -, hr, -⟩
  · simp at hr
  · obtain ⟨-, buf, henc, hout⟩ := finishResult_ok hr.symm
    obtain ⟨img, hdec, hdx, hdy⟩ := hpng c3 buf henc
    refine ⟨buf, img, ?_, hdec, ?_, ?_⟩
    · rw [hout]; exact DecodeString_EncodeToString buf
    · rw [hdx, hrect]
    · rw [hdy, hrect]

/-- C10. `Generate` never writes to an object that existed before the call:
whenever it returns, with or without an error, the background image and the
font of the generator are the objects they were, and so is every other object
of the heap the call started from; what the call wrote is in objects it
allocated. -/
theorem generate_preserves_assets (env : Env) (g : Generator) (name url : String)
    (s : State) (bg : Image) (f : Font)
    (hbg : s.heap[g.background]? = some (Obj.image bg))
    (hfont : s.heap[g.font]? = some (Obj.font f))
    (r : String × Option Error) (s1 : State)
    (hrun : Generate env g name url s = Exec.returned (r, s1)) :
    s1.heap[g.background]? = some (Obj.image bg) ∧
    s1.heap[g.font]? = some (Obj.font f) ∧
    (∀ a, a < s.heap.length → s1.heap[a]? = s.heap[a]?) ∧
    s.heap.length ≤ s1.heap.length := by
  have hframe : (∀ a, a < s.heap.length → s1.heap[a]? = s.heap[a]?) ∧
      s.heap.length ≤ s1.heap.length := by
    rcases Generate_cases env g name url s bg f hbg hfont _ _ hrun with
      ⟨err, evs, -, -, hs1, -⟩ | ⟨av, c3, textErr, aRect, p, y, -, -, -, -, hs1⟩
    · rw [hs1]
      exact ⟨fun _ _ => rfl, le_refl _⟩
    · rw [hs1]
      refine ⟨fun a ha => List.getElem?_append_left ha, ?_⟩
      simp
  refine ⟨?_, ?_, hframe.1, hframe.2⟩
  · rw [hframe.1 _ (lt_of_getElem?_eq_some hbg), hbg]
  · rw [hframe.1 _ (lt_of_getElem?_eq_some hfont), hfont]


theorem exRun :
    ∃ s1, Generate exEnv exGenerator "Ada" "https://example.com/ada.png" exState =
      Exec.returned (("AyAEsA==", none), s1) :=
  ⟨_, Generate_run exEnv exGenerator "Ada" "https://example.com/ada.png" exState
    exAvatar exBackground ⟨⟨⟨0, 0⟩, ⟨800, 1200⟩⟩, fun _ _ => ⟨0, 0, 0, 0⟩⟩ exFont
    ⟨5, _, 7, _, rfl, rfl, rfl, rfl⟩ rfl rfl rfl
    _ _ _ rfl rfl rfl _ rfl _ _ rfl rfl _ _ rfl _ rfl⟩

theorem exCodec (m : ImageRGBA) (bytes : List Byte) (h : exEncode m = Except.ok bytes) :
    ∃ img, exDecode bytes = Except.ok img ∧
      img.Bounds.Dx = m.Rect.Dx ∧ img.Bounds.Dy = m.Rect.Dy := by
  unfold exEncode at h
  split at h
  · rename_i hc
    obtain ⟨hmin, hx0, hx1, hy0, hy1⟩ := hc
    simp only [Except.ok.injEq] at h
    subst h
    refine ⟨_, rfl, ?_, ?_⟩
    · simp only [Rectangle.Dx, hmin, Fin.ofNat, sub_zero]
      congr 1
      omega
    · simp only [Rectangle.Dy, hmin, Fin.ofNat, sub_zero]
      congr 1
      omega
  · simp at h

/-- The scenario of the specification: the output of the request decodes to a
raster of 800×1200, the size of the background. -/
theorem generate_output_dimensions_witness :
    ∃ bytes img,
      DecodeString "AyAEsA==" = some bytes ∧ exDecode bytes = Except.ok img ∧
      img.Bounds.Dx = 800 ∧ img.Bounds.Dy = 1200 := by
  obtain ⟨s1, h⟩ := exRun
  exact generate_output_dimensions exEnv exGenerator "Ada" "https://example.com/ada.png"
    exState exBackground exFont rfl rfl _ s1 h exDecode exCodec

/-- The scenario of the specification: after the request the background and
the font are at their addresses, unchanged. -/
theorem generate_preserves_assets_witness :
    ∃ s1 : State,
      s1.heap[0]? = some (Obj.image exBackground) ∧
      s1.heap[1]? = some (Obj.font exFont) ∧
      2 ≤ s1.heap.length := by
  obtain ⟨s1, h⟩ := exRun
  obtain ⟨h1, h2, -, h4⟩ :=
    generate_preserves_assets exEnv exGenerator "Ada" "https://example.com/ada.png"
      exState exBackground exFont rfl rfl _ s1 h
  exact ⟨s1, h1, h2, h4⟩


/-- Every returning run of `Generate`: what its result and its call log are,
by the stage that failed, if any. -/
theorem Generate_returned_spec (env : Env) (g : Generator) (name url : String)
    (s : State) (bg : Image) (f : Font)
    (hbg : s.heap[g.background]? = some (Obj.image bg))
    (hfont : s.heap[g.font]? = some (Obj.font f))
    (r : String × Option Error) (s1 : State)
    (hrun : Generate env g name url s = Exec.returned (r, s1)) :
    (r.1 ≠ "" → r.2 = none) ∧
    (r.2 = none →
      (newEvents s s1).map Event.call =
        [Call.Generate, Call.fetchImage, Call.httpGet, Call.bodyClose, Call.resize,
         Call.newRGBA, Call.drawSrc, Call.drawOver, Call.drawText, Call.drawString,
         Call.pngEncode, Call.base64Encode]) ∧
    (∀ err, r.2 = some err → r.1 = "" ∧
      ((∃ e, err = Error.wrap "failed to fetch avatar" e ∧ s1.heap = s.heap ∧
          ((newEvents s s1).map Event.call =
              [Call.Generate, Call.fetchImage, Call.httpGet] ∨
           (newEvents s s1).map Event.call =
              [Call.Generate, Call.fetchImage, Call.httpGet, Call.bodyClose])) ∨
       (∃ e, err = Error.wrap "failed to draw text" e ∧
          (newEvents s s1).map Event.call =
            [Call.Generate, Call.fetchImage, Call.httpGet, Call.bodyClose, Call.resize,
             Call.newRGBA, Call.drawSrc, Call.drawOver, Call.drawText, Call.drawString]) ∨
       (∃ e, err = Error.wrap "failed to encode output" e ∧
          (newEvents s s1).map Event.call =
            [Call.Generate, Call.fetchImage, Call.httpGet, Call.bodyClose, Call.resize,
             Call.newRGBA, Call.drawSrc, Call.drawOver, Call.drawText, Call.drawString,
             Call.pngEncode]))) ∧
    (∀ e s2,
      fetchImage env url { heap := s.heap, trace := s.trace ++ [Event.Generate name url] } =
        Exec.returned (Except.error e, s2) →
      r = ("", some (Error.wrap "failed to fetch avatar" e)) ∧ s1 = s2) ∧
    (∀ p msg, Event.drawString (s.heap.length + 2) name p ∈ newEvents s s1 →
      (f.Glyphs 72 36 Hinting.HintingFull name p).2 = some msg →
      r = ("", some (Error.wrap "failed to draw text" (Error.mk msg)))) ∧
    (∀ canvas e, Event.pngEncode (s.heap.length + 2) ∈ newEvents s s1 →
      s1.heap[s.heap.length + 2]? = some (Obj.rgba canvas) →
      env.pngEncode canvas = Except.error e →
      r = ("", some (Error.wrap "failed to encode output" e))) := by
  rcases Generate_cases env g name url s bg f hbg hfont _ _ hrun with
    ⟨err, evs, hr, hfetch, hs1, hevs⟩ |
    ⟨av, c3, textErr, aRect, p, y, hserved, -, htext, hr, hs1⟩
  · have hnew : newEvents s s1 =
        Event.Generate name url :: Event.fetchImage url :: Event.httpGet url :: evs := by
      rw [hs1]; exact newEvents_append _ _ _
    have hheap : s1.heap = s.heap := by rw [hs1]
    subst hr
    refine ⟨fun h => absurd rfl h, fun h => Option.noConfusion h, ?_, ?_, ?_, ?_⟩
    · intro err1 h1
      simp only [Option.some.injEq] at h1
      refine ⟨rfl, Or.inl ⟨err, h1.symm, hheap, ?_⟩⟩
      rw [hnew]
      rcases hevs with h | h <;> subst h
      · left; rfl
      · right; rfl
    · intro e s2 h2
      rw [hfetch] at h2
      simp only [Exec.returned.injEq, Prod.mk.injEq, Except.error.injEq] at h2
      rw [h2.1]
      exact ⟨rfl, h2.2⟩
    · intro p msg hmem
      rw [hnew] at hmem
      rcases hevs with h | h <;> subst h <;> simp at hmem
    · intro canvas e hmem
      rw [hnew] at hmem
      rcases hevs with h | h <;> subst h <;> simp at hmem
  · have hnew : newEvents s s1 =
        [Event.Generate name url, Event.fetchImage url,
          Event.httpGet url, Event.bodyClose,
          Event.resize 150 150 s.heap.length, Event.newRGBA bg.Bounds,
          Event.draw (s.heap.length + 2) bg.Bounds g.background ⟨0, 0⟩ Op.Src,
          Event.draw (s.heap.length + 2) aRect (s.heap.length + 1) ⟨0, 0⟩ Op.Over,
          Event.drawText (s.heap.length + 2) name y,
          Event.drawString (s.heap.length + 2) name p] ++
          finishEvents (s.heap.length + 2) textErr (env.pngEncode c3) := by
      rw [hs1, List.append_assoc]; exact newEvents_append _ _ _
    have hheap : s1.heap[s.heap.length + 2]? = some (Obj.rgba c3) := by
      rw [hs1]; exact heap_at2 _ _ _ _ _
    have hnofetch : ∀ e s2,
        fetchImage env url { heap := s.heap, trace := s.trace ++ [Event.Generate name url] } ≠
          Exec.returned (Except.error e, s2) := by
      intro e s2 h2
      obtain ⟨t, resp, t2, bytes, hnet, hs, hb, hdec⟩ := hserved
      rw [fetchImage_ok env url _ t t2 resp bytes av hnet hs hb hdec] at h2
      simp at h2
    subst hr
    cases textErr with
    | some msg =>
      simp only [finishEvents, List.append_nil] at hnew
      refine ⟨fun h => absurd rfl h, fun h => Option.noConfusion h, ?_, ?_, ?_, ?_⟩
      · intro err1 h1
        simp only [finishResult, Option.some.injEq] at h1
        refine ⟨rfl, Or.inr (Or.inl ⟨_, h1.symm, ?_⟩)⟩
        rw [hnew]; rfl
      · intro e s2 h2
        exact absurd h2 (hnofetch e s2)
      · intro p1 msg1 hmem hg
        rw [hnew] at hmem
        simp only [List.mem_cons, List.mem_singleton, List.not_mem_nil, or_false,
          Event.drawString.injEq, reduceCtorEq, false_or, true_and] at hmem
        rw [hmem, ← htext] at hg
        simp only [Option.some.injEq] at hg
        rw [finishResult, hg]
      · intro canvas e hmem
        rw [hnew] at hmem
        simp at hmem
    | none =>
      cases henc : env.pngEncode c3 with
      | error e0 =>
        simp only [henc, finishEvents] at hnew
        refine ⟨fun h => absurd rfl h, fun h => Option.noConfusion h, ?_, ?_, ?_, ?_⟩
        · intro err1 h1
          simp only [finishResult, Option.some.injEq] at h1
          refine ⟨rfl, Or.inr (Or.inr ⟨_, h1.symm, ?_⟩)⟩
          rw [hnew]; rfl
        · intro e s2 h2
          exact absurd h2 (hnofetch e s2)
        · intro p1 msg1 hmem hg
          rw [hnew] at hmem
          simp only [List.cons_append, List.nil_append, List.mem_cons, List.mem_singleton,
            List.not_mem_nil, or_false, Event.drawString.injEq, reduceCtorEq, false_or,
            true_and] at hmem
          rw [hmem, ← htext] at hg
          cases hg
        · intro canvas e _ hc he
          rw [hheap] at hc
          simp only [Option.some.injEq, Obj.rgba.injEq] at hc
          rw [← hc, henc] at he
          simp only [Except.error.injEq] at he
          rw [finishResult, he]
      | ok buf =>
        simp only [henc, finishEvents] at hnew
        refine ⟨fun _ => rfl, fun _ => ?_, fun err1 h1 => Option.noConfusion h1, ?_, ?_, ?_⟩
        · rw [hnew]; rfl
        · intro e s2 h2
          exact absurd h2 (hnofetch e s2)
        · intro p1 msg1 hmem hg
          rw [hnew] at hmem
          simp only [List.cons_append, List.nil_append, List.mem_cons, List.mem_singleton,
            List.not_mem_nil, or_false, Event.drawString.injEq, reduceCtorEq, false_or,
            true_and] at hmem
          rw [hmem, ← htext] at hg
          cases hg
        · intro canvas e _ hc he
          rw [hheap] at hc
          simp only [Option.some.injEq, Obj.rgba.injEq] at hc
          rw [← hc, henc] at he
          cases he

theorem Generate_text_error (env : Env) (g : Generator) (name url : String) (s s2 s3 : State)
    (output : Addr) (avatarY : Int) (avatarBounds : Rectangle) (err : Error)
    (hc : composite env g url { heap := s.heap, trace := s.trace ++ [Event.Generate name url] } =
      Exec.returned (Except.ok (output, avatarY, avatarBounds), s2))
    (ht : drawText g output name (wrapInt (wrapInt (avatarY + avatarBounds.Dy) + 30)) s2 =
      Exec.returned (some err, s3)) :
    Generate env g name url s =
      Exec.returned (("", some (Error.wrap "failed to draw text" err)), s3) := by
  simp [Generate, M.bind, emit, hc, ht]

theorem Generate_encode_error (env : Env) (g : Generator) (name url : String)
    (s s2 s3 s4 : State)
    (output : Addr) (avatarY : Int) (avatarBounds : Rectangle) (err : Error)
    (hc : composite env g url { heap := s.heap, trace := s.trace ++ [Event.Generate name url] } =
      Exec.returned (Except.ok (output, avatarY, avatarBounds), s2))
    (ht : drawText g output name (wrapInt (wrapInt (avatarY + avatarBounds.Dy) + 30)) s2 =
      Exec.returned (none, s3))
    (he : pngEncode env output s3 = Exec.returned (Except.error err, s4)) :
    Generate env g name url s =
      Exec.returned (("", some (Error.wrap "failed to encode output" err)), s4) := by
  simp [Generate, M.bind, emit, hc, ht, he]

theorem Generate_success (env : Env) (g : Generator) (name url : String)
    (s s2 s3 s4 : State)
    (output : Addr) (avatarY : Int) (avatarBounds : Rectangle) (buf : List Byte)
    (hc : composite env g url { heap := s.heap, trace := s.trace ++ [Event.Generate name url] } =
      Exec.returned (Except.ok (output, avatarY, avatarBounds), s2))
    (ht : drawText g output name (wrapInt (wrapInt (avatarY + avatarBounds.Dy) + 30)) s2 =
      Exec.returned (none, s3))
    (he : pngEncode env output s3 = Exec.returned (Except.ok buf, s4)) :
    Generate env g name url s =
      Exec.returned ((EncodeToString buf, none),
        { heap := s4.heap, trace := s4.trace ++ [Event.base64Encode] }) := by
  simp [Generate, M.bind, emit, hc, ht, he]

/-- The run of `Generate` for a served avatar: it returns, with the result
that the glyphs of its `DrawString` call and the PNG encoder on its final
canvas decide. -/
theorem Generate_served (env : Env) (g : Generator) (name url : String) (s : State)
    (av bg : Image) (f : Font)
    (hserved : Served env url av)
    (hbg : s.heap[g.background]? = some (Obj.image bg))
    (hfont : s.heap[g.font]? = some (Obj.font f))
    (hnew : (NewRGBA bg.Bounds).isSome = true) :
    ∃ p c3 aRect y,
      Generate env g name url s =
        Exec.returned
          (finishResult (f.Glyphs 72 36 Hinting.HintingFull name p).2 (env.pngEncode c3),
          { heap := s.heap ++ [Obj.image av, Obj.image (env.Resize 150 150 av), Obj.rgba c3],
            trace := s.trace ++ ([Event.Generate name url, Event.fetchImage url,
              Event.httpGet url, Event.bodyClose,
              Event.resize 150 150 s.heap.length, Event.newRGBA bg.Bounds,
              Event.draw (s.heap.length + 2) bg.Bounds g.background ⟨0, 0⟩ Op.Src,
              Event.draw (s.heap.length + 2) aRect (s.heap.length + 1) ⟨0, 0⟩ Op.Over,
              Event.drawText (s.heap.length + 2) name y,
              Event.drawString (s.heap.length + 2) name p] ++
              finishEvents (s.heap.length + 2)
                (f.Glyphs 72 36 Hinting.HintingFull name p).2 (env.pngEncode c3)) }) := by
  obtain ⟨c0, hc0⟩ := Option.isSome_iff_exists.mp hnew
  have h := Generate_run env g name url s av bg c0 f hserved hbg hfont hc0
    _ _ _ rfl rfl rfl _ rfl _ _ rfl rfl _ _ rfl _ rfl
  rw [List.append_assoc] at h
  exact ⟨_, _, _, _, h⟩

/-- C6. `Generate` is all-or-nothing and linear, for a generator whose
background and font are in the heap.

A failing stage makes it return the empty string with the wrapped error, in
the state that stage left, so that no later stage runs: a fetch that returns
an error; a `drawText` that returns an error after the compositing; a
`png.Encode` that returns an error after the text.  When the three succeed it
returns the base64 text of the PNG bytes with a nil error.  For a served
avatar and a canvas that can be allocated it does return, and the glyphs of
its `DrawString` call and the PNG encoder on its final canvas decide which of
the three results it is and where the call log ends.

Of every returning run: a non-empty string comes only with a nil error; with
a nil error the calls are, in this order and once each, the fetch
(`fetchImage`, `http.Get`, the closing of the body), the resize, the
compositing (`image.NewRGBA`, `draw.Draw` with `Src`, `draw.Draw` with
`Over`), the text (`drawText`, `DrawString`) and the encoding (`png.Encode`,
base64); with an error the string is empty and the error wraps that of the
stage that failed, whose call is the last of the run. -/
theorem generate_all_or_nothing (env : Env) (g : Generator) (name url : String)
    (s : State) (bg : Image) (f : Font)
    (hbg : s.heap[g.background]? = some (Obj.image bg))
    (hfont : s.heap[g.font]? = some (Obj.font f)) :
    (∀ e s2,
      fetchImage env url { heap := s.heap, trace := s.trace ++ [Event.Generate name url] } =
        Exec.returned (Except.error e, s2) →
      Generate env g name url s =
        Exec.returned (("", some (Error.wrap "failed to fetch avatar" e)), s2)) ∧
    (∀ output avatarY avatarBounds s2 err s3,
      composite env g url { heap := s.heap, trace := s.trace ++ [Event.Generate name url] } =
        Exec.returned (Except.ok (output, avatarY, avatarBounds), s2) →
      drawText g output name (wrapInt (wrapInt (avatarY + avatarBounds.Dy) + 30)) s2 =
        Exec.returned (some err, s3) →
      Generate env g name url s =
        Exec.returned (("", some (Error.wrap "failed to draw text" err)), s3)) ∧
    (∀ output avatarY avatarBounds s2 s3 err s4,
      composite env g url { heap := s.heap, trace := s.trace ++ [Event.Generate name url] } =
        Exec.returned (Except.ok (output, avatarY, avatarBounds), s2) →
      drawText g output name (wrapInt (wrapInt (avatarY + avatarBounds.Dy) + 30)) s2 =
        Exec.returned (none, s3) →
      pngEncode env output s3 = Exec.returned (Except.error err, s4) →
      Generate env g name url s =
        Exec.returned (("", some (Error.wrap "failed to encode output" err)), s4)) ∧
    (∀ output avatarY avatarBounds s2 s3 buf s4,
      composite env g url { heap := s.heap, trace := s.trace ++ [Event.Generate name url] } =
        Exec.returned (Except.ok (output, avatarY, avatarBounds), s2) →
      drawText g output name (wrapInt (wrapInt (avatarY + avatarBounds.Dy) + 30)) s2 =
        Exec.returned (none, s3) →
      pngEncode env output s3 = Exec.returned (Except.ok buf, s4) →
      Generate env g name url s =
        Exec.returned ((EncodeToString buf, none),
          { heap := s4.heap, trace := s4.trace ++ [Event.base64Encode] })) ∧
    (∀ av, Served env url av → (NewRGBA bg.Bounds).isSome = true →
      ∃ p canvas r s1,
        Generate env g name url s = Exec.returned (r, s1) ∧
        Event.drawString (s.heap.length + 2) name p ∈ newEvents s s1 ∧
        s1.heap[s.heap.length + 2]? = some (Obj.rgba canvas) ∧
        (∀ msg, (f.Glyphs 72 36 Hinting.HintingFull name p).2 = some msg →
          r = ("", some (Error.wrap "failed to draw text" (Error.mk msg))) ∧
          (newEvents s s1).map Event.call =
            [Call.Generate, Call.fetchImage, Call.httpGet, Call.bodyClose, Call.resize,
             Call.newRGBA, Call.drawSrc, Call.drawOver, Call.drawText, Call.drawString]) ∧
        ((f.Glyphs 72 36 Hinting.HintingFull name p).2 = none →
          ∀ e, env.pngEncode canvas = Except.error e →
          r = ("", some (Error.wrap "failed to encode output" e)) ∧
          (newEvents s s1).map Event.call =
            [Call.Generate, Call.fetchImage, Call.httpGet, Call.bodyClose, Call.resize,
             Call.newRGBA, Call.drawSrc, Call.drawOver, Call.drawText, Call.drawString,
             Call.pngEncode]) ∧
        ((f.Glyphs 72 36 Hinting.HintingFull name p).2 = none →
          ∀ buf, env.pngEncode canvas = Except.ok buf →
          r = (EncodeToString buf, none) ∧
          (newEvents s s1).map Event.call =
            [Call.Generate, Call.fetchImage, Call.httpGet, Call.bodyClose, Call.resize,
             Call.newRGBA, Call.drawSrc, Call.drawOver, Call.drawText, Call.drawString,
             Call.pngEncode, Call.base64Encode])) ∧
    (∀ r s1, Generate env g name url s = Exec.returned (r, s1) →
      (r.1 ≠ "" → r.2 = none) ∧
      (r.2 = none →
        (newEvents s s1).map Event.call =
          [Call.Generate, Call.fetchImage, Call.httpGet, Call.bodyClose, Call.resize,
           Call.newRGBA, Call.drawSrc, Call.drawOver, Call.drawText, Call.drawString,
           Call.pngEncode, Call.base64Encode]) ∧
      (∀ err, r.2 = some err → r.1 = "" ∧
        ((∃ e, err = Error.wrap "failed to fetch avatar" e ∧ s1.heap = s.heap ∧
            ((newEvents s s1).map Event.call =
                [Call.Generate, Call.fetchImage, Call.httpGet] ∨
             (newEvents s s1).map Event.call =
                [Call.Generate, Call.fetchImage, Call.httpGet, Call.bodyClose])) ∨
         (∃ e, err = Error.wrap "failed to draw text" e ∧
            (newEvents s s1).map Event.call =
              [Call.Generate, Call.fetchImage, Call.httpGet, Call.bodyClose, Call.resize,
               Call.newRGBA, Call.drawSrc, Call.drawOver, Call.drawText, Call.drawString]) ∨
         (∃ e, err = Error.wrap "failed to encode output" e ∧
            (newEvents s s1).map Event.call =
              [Call.Generate, Call.fetchImage, Call.httpGet, Call.bodyClose, Call.resize,
               Call.newRGBA, Call.drawSrc, Call.drawOver, Call.drawText, Call.drawString,
               Call.pngEncode]))) ∧
      (∀ e s2,
        fetchImage env url { heap := s.heap, trace := s.trace ++ [Event.Generate name url] } =
          Exec.returned (Except.error e, s2) →
        r = ("", some (Error.wrap "failed to fetch avatar" e)) ∧ s1 = s2) ∧
      (∀ p msg, Event.drawString (s.heap.length + 2) name p ∈ newEvents s s1 →
        (f.Glyphs 72 36 Hinting.HintingFull name p).2 = some msg →
        r = ("", some (Error.wrap "failed to draw text" (Error.mk msg)))) ∧
      (∀ canvas e, Event.pngEncode (s.heap.length + 2) ∈ newEvents s s1 →
        s1.heap[s.heap.length + 2]? = some (Obj.rgba canvas) →
        env.pngEncode canvas = Except.error e →
        r = ("", some (Error.wrap "failed to encode output" e)))) := by
  refine ⟨fun e s2 h => Generate_fetch_error env g name url s s2 e h,
    fun output avatarY avatarBounds s2 err s3 hc ht =>
      Generate_text_error env g name url s s2 s3 output avatarY avatarBounds err hc ht,
    fun output avatarY avatarBounds s2 s3 err s4 hc ht he =>
      Generate_encode_error env g name url s s2 s3 s4 output avatarY avatarBounds err hc ht he,
    fun output avatarY avatarBounds s2 s3 buf s4 hc ht he =>
      Generate_success env g name url s s2 s3 s4 output avatarY avatarBounds buf hc ht he,
    ?_,
    fun r s1 hrun => Generate_returned_spec env g name url s bg f hbg hfont r s1 hrun⟩
  intro av hserved hnew
  obtain ⟨p, c3, aRect, y, hrun⟩ := Generate_served env g name url s av bg f hserved hbg hfont hnew
  refine ⟨p, c3, _, _, hrun, ?_, heap_at2 _ _ _ _ _, ?_, ?_, ?_⟩
  · rw [newEvents_append]
    simp
  · intro msg hmsg
    rw [newEvents_append, hmsg]
    exact ⟨rfl, rfl⟩
  · intro hnone e he
    rw [newEvents_append, hnone, he]
    exact ⟨rfl, rfl⟩
  · intro hnone buf hb
    rw [newEvents_append, hnone, hb]
    exact ⟨rfl, rfl⟩

/-- Four requests.  The scenario of the specification succeeds and its calls
are the twelve calls of the five stages, in order.  A server that answers 203
makes `Generate` return the empty string with the error of the fetch.  A
font whose glyph fails to load makes it return the empty string with the
error of the text, after the ten calls up to `DrawString`.  A PNG encoder
that fails makes it return the empty string with the error of the encoder,
after the eleven calls up to `png.Encode`. -/
theorem generate_all_or_nothing_witness :
    (∃ s1, Generate exEnv exGenerator "Ada" "https://example.com/ada.png" exState =
        Exec.returned (("AyAEsA==", none), s1) ∧
      (newEvents exState s1).map Event.call =
        [Call.Generate, Call.fetchImage, Call.httpGet, Call.bodyClose, Call.resize,
         Call.newRGBA, Call.drawSrc, Call.drawOver, Call.drawText, Call.drawString,
         Call.pngEncode, Call.base64Encode]) ∧
    Generate exEnv203 exGenerator "Ada" "https://example.com/ada.png" exState =
      Exec.returned
        (("", some (Error.wrap "failed to fetch avatar" (Error.status 203))),
         { heap := exState.heap,
           trace := [Event.Generate "Ada" "https://example.com/ada.png",
             Event.fetchImage "https://example.com/ada.png",
             Event.httpGet "https://example.com/ada.png", Event.bodyClose] }) ∧
    (∃ s1, Generate exEnv exGenerator "Ada" "https://example.com/ada.png" exFailState =
        Exec.returned
          (("", some (Error.wrap "failed to draw text"
            (Error.mk "freetype: unsupported glyph"))), s1) ∧
      (newEvents exFailState s1).map Event.call =
        [Call.Generate, Call.fetchImage, Call.httpGet, Call.bodyClose, Call.resize,
         Call.newRGBA, Call.drawSrc, Call.drawOver, Call.drawText, Call.drawString]) ∧
    (∃ s1, Generate exNoEncodeEnv exGenerator "Ada" "https://example.com/ada.png" exState =
        Exec.returned
          (("", some (Error.wrap "failed to encode output"
            (Error.mk "png: invalid image size"))), s1) ∧
      (newEvents exState s1).map Event.call =
        [Call.Generate, Call.fetchImage, Call.httpGet, Call.bodyClose, Call.resize,
         Call.newRGBA, Call.drawSrc, Call.drawOver, Call.drawText, Call.drawString,
         Call.pngEncode]) := by
  refine ⟨?_, ?_, ?_, ?_⟩
  · obtain ⟨s1, h⟩ := exRun
    exact ⟨s1, h, ((generate_all_or_nothing exEnv exGenerator "Ada"
      "https://example.com/ada.png" exState exBackground exFont rfl rfl).2.2.2.2.2
        _ s1 h).2.1 rfl⟩
  · exact (generate_all_or_nothing exEnv203 exGenerator "Ada"
      "https://example.com/ada.png" exState exBackground exFont rfl rfl).1 _ _
        (fetchImage_status exEnv203 "https://example.com/ada.png" _ 5 _ rfl (by decide))
  · obtain ⟨p, canvas, r, s1, hrun, -, -, htext, -, -⟩ :=
      (generate_all_or_nothing exEnv exGenerator "Ada"
        "https://example.com/ada.png" exFailState exBackground exFailFont rfl rfl).2.2.2.2.1
        exAvatar ⟨5, _, 7, _, rfl, rfl, rfl, rfl⟩ rfl
    obtain ⟨hr, hcalls⟩ := htext "freetype: unsupported glyph" rfl
    rw [hr] at hrun
    exact ⟨s1, hrun, hcalls⟩
  · obtain ⟨p, canvas, r, s1, hrun, -, -, -, henc, -⟩ :=
      (generate_all_or_nothing exNoEncodeEnv exGenerator "Ada"
        "https://example.com/ada.png" exState exBackground exFont rfl rfl).2.2.2.2.1
        exAvatar ⟨5, _, 7, _, rfl, rfl, rfl, rfl⟩ rfl
    obtain ⟨hr, hcalls⟩ := henc rfl (Error.mk "png: invalid image size") rfl
    rw [hr] at hrun
    exact ⟨s1, hrun, hcalls⟩


/-- C7, as stated, fails on a success status other than 200: a GET answered
with 203 (a status of the class 2xx) and a body that decodes to an image
makes `fetchImage` return an error, not the decoded raster. -/
theorem fetchImage_success_status_counterexample :
    isSuccessStatus 203 = true ∧
    exEnv203.net "https://example.com/ada.png" =
      Exchange.answers 5 ⟨203, BodyRead.data 7 [1, 2, 3]⟩ ∧
    exEnv203.Decode [1, 2, 3] = Except.ok exAvatar ∧
    fetchImage exEnv203 "https://example.com/ada.png" exState =
      Exec.returned (Except.error (Error.status 203),
        { heap := exState.heap,
          trace := exState.trace ++ [Event.fetchImage "https://example.com/ada.png",
            Event.httpGet "https://example.com/ada.png", Event.bodyClose] }) :=
  ⟨by decide, rfl, rfl,
    fetchImage_status exEnv203 "https://example.com/ada.png" exState 5 _ rfl (by decide)⟩

/-- C7 (amended). `fetchImage` returns an error when `http.Get` fails, when
the status code is not 200 (other success codes included), when the body
cannot be read to its end, or when the body is not a decodable image; for a
response with status 200 whose body is read and decodes, it returns the
decoded raster, a fresh object, with no error.  Every returning run issues
exactly one `http.Get`, for the URL it was given: there is no retry. -/
theorem fetchImage_outcomes (env : Env) (url : String) (s : State) :
    (∀ err, env.net url = Exchange.fails err →
      fetchImage env url s =
        Exec.returned (Except.error err,
          { heap := s.heap,
            trace := s.trace ++ [Event.fetchImage url, Event.httpGet url] })) ∧
    (∀ t resp, env.net url = Exchange.answers t resp → resp.StatusCode ≠ 200 →
      fetchImage env url s =
        Exec.returned (Except.error (Error.status resp.StatusCode),
          { heap := s.heap,
            trace := s.trace ++ [Event.fetchImage url, Event.httpGet url,
              Event.bodyClose] })) ∧
    (∀ t resp err, env.net url = Exchange.answers t resp → resp.StatusCode = 200 →
      resp.Body = BodyRead.fails err →
      fetchImage env url s =
        Exec.returned (Except.error err,
          { heap := s.heap,
            trace := s.trace ++ [Event.fetchImage url, Event.httpGet url,
              Event.bodyClose] })) ∧
    (∀ t resp t2 bytes err, env.net url = Exchange.answers t resp →
      resp.StatusCode = 200 → resp.Body = BodyRead.data t2 bytes →
      env.Decode bytes = Except.error err →
      fetchImage env url s =
        Exec.returned (Except.error err,
          { heap := s.heap,
            trace := s.trace ++ [Event.fetchImage url, Event.httpGet url,
              Event.bodyClose] })) ∧
    (∀ t resp t2 bytes img, env.net url = Exchange.answers t resp →
      resp.StatusCode = 200 → resp.Body = BodyRead.data t2 bytes →
      env.Decode bytes = Except.ok img →
      fetchImage env url s =
        Exec.returned (Except.ok s.heap.length,
          { heap := s.heap ++ [Obj.image img],
            trace := s.trace ++ [Event.fetchImage url, Event.httpGet url,
              Event.bodyClose] })) ∧
    (∀ r s1, fetchImage env url s = Exec.returned (r, s1) →
      (newEvents s s1).filterMap Event.getURL = [url]) := by
  refine ⟨fun err h => fetchImage_fails env url s err h,
    fun t resp h hs => fetchImage_status env url s t resp h hs,
    fun t resp err h hs hb => fetchImage_read_fails env url s t resp err h hs hb,
    fun t resp t2 bytes err h hs hb hd =>
      fetchImage_decode_fails env url s t t2 resp bytes err h hs hb hd,
    fun t resp t2 bytes img h hs hb hd => fetchImage_ok env url s t t2 resp bytes img h hs hb hd,
    ?_⟩
  intro r s1 hrun
  cases hnet : env.net url with
  | fails err =>
    rw [fetchImage_fails env url s err hnet] at hrun
    simp only [Exec.returned.injEq, Prod.mk.injEq] at hrun
    rw [← hrun.2, newEvents_append]
    rfl
  | never =>
    rw [fetchImage_never env url s hnet] at hrun
    cases hrun
  | answers t resp =>
    by_cases hs : resp.StatusCode = 200
    · cases hb : resp.Body with
      | stalls =>
        rw [fetchImage_stalls env url s t resp hnet hs hb] at hrun
        cases hrun
      | fails err =>
        rw [fetchImage_read_fails env url s t resp err hnet hs hb] at hrun
        simp only [Exec.returned.injEq, Prod.mk.injEq] at hrun
        rw [← hrun.2, newEvents_append]
        rfl
      | data t2 bytes =>
        cases hd : env.Decode bytes with
        | error err =>
          rw [fetchImage_decode_fails env url s t t2 resp bytes err hnet hs hb hd] at hrun
          simp only [Exec.returned.injEq, Prod.mk.injEq] at hrun
          rw [← hrun.2, newEvents_append]
          rfl
        | ok img =>
          rw [fetchImage_ok env url s t t2 resp bytes img hnet hs hb hd] at hrun
          simp only [Exec.returned.injEq, Prod.mk.injEq] at hrun
          rw [← hrun.2, newEvents_append]
          rfl
    · rw [fetchImage_status env url s t resp hnet hs] at hrun
      simp only [Exec.returned.injEq, Prod.mk.injEq] at hrun
      rw [← hrun.2, newEvents_append]
      rfl

/-- C8, as stated, fails: `fetchImage` retrieves through `http.Get`, that is
through `http.DefaultClient`, whose `Timeout` is zero (no timeout), and on a
server that never answers the call never returns. -/
theorem fetchImage_timeout_counterexample :
    DefaultClient.Timeout = 0 ∧
    exSilentEnv.net "https://example.com/ada.png" = Exchange.never ∧
    fetchImage exSilentEnv "https://example.com/ada.png" exState = Exec.blocked :=
  ⟨rfl, rfl, fetchImage_never exSilentEnv "https://example.com/ada.png" exState rfl⟩

/-- C8 (amended). The retrieval of `fetchImage` goes through the default
client, whose `Timeout` is zero: the call never returns exactly when the server
never answers, or answers 200 and then stalls while the body is read; in every
other case it returns, and it never panics.  A client with a non-zero
`Timeout` would return from both the request and the reading of the body. -/
theorem fetchImage_blocks_iff (env : Env) (url : String) (s : State) :
    DefaultClient.Timeout = 0 ∧
    (fetchImage env url s = Exec.blocked ↔
      (env.net url = Exchange.never ∨
        ∃ t resp, env.net url = Exchange.answers t resp ∧ resp.StatusCode = 200 ∧
          resp.Body = BodyRead.stalls)) ∧
    fetchImage env url s ≠ Exec.panicked ∧
    (∀ c : Client, c.Timeout ≠ 0 →
      (∀ x, (c.Get x).isSome = true) ∧ (∀ b, (c.ReadAll b).isSome = true)) := by
  refine ⟨rfl, ?_, ?_, ?_⟩
  · constructor
    · intro hblk
      cases hnet : env.net url with
      | fails err =>
        rw [fetchImage_fails env url s err hnet] at hblk
        cases hblk
      | never => exact Or.inl rfl
      | answers t resp =>
        right
        by_cases hs : resp.StatusCode = 200
        · cases hb : resp.Body with
          | stalls => exact ⟨t, resp, rfl, hs, hb⟩
          | fails err =>
            rw [fetchImage_read_fails env url s t resp err hnet hs hb] at hblk
            cases hblk
          | data t2 bytes =>
            cases hd : env.Decode bytes with
            | error err =>
              rw [fetchImage_decode_fails env url s t t2 resp bytes err hnet hs hb hd] at hblk
              cases hblk
            | ok img =>
              rw [fetchImage_ok env url s t t2 resp bytes img hnet hs hb hd] at hblk
              cases hblk
        · rw [fetchImage_status env url s t resp hnet hs] at hblk
          cases hblk
    · rintro (h | ⟨t, resp, h, hs, hb⟩)
      · exact fetchImage_never env url s h
      · exact fetchImage_stalls env url s t resp h hs hb
  · intro hp
    cases hnet : env.net url with
    | fails err =>
      rw [fetchImage_fails env url s err hnet] at hp
      cases hp
    | never =>
      rw [fetchImage_never env url s hnet] at hp
      cases hp
    | answers t resp =>
      by_cases hs : resp.StatusCode = 200
      · cases hb : resp.Body with
        | stalls =>
          rw [fetchImage_stalls env url s t resp hnet hs hb] at hp
          cases hp
        | fails err =>
          rw [fetchImage_read_fails env url s t resp err hnet hs hb] at hp
          cases hp
        | data t2 bytes =>
          cases hd : env.Decode bytes with
          | error err =>
            rw [fetchImage_decode_fails env url s t t2 resp bytes err hnet hs hb hd] at hp
            cases hp
          | ok img =>
            rw [fetchImage_ok env url s t t2 resp bytes img hnet hs hb hd] at hp
            cases hp
      · rw [fetchImage_status env url s t resp hnet hs] at hp
        cases hp
  · intro c hc
    constructor
    · intro x
      cases x with
      | fails err => rfl
      | answers t resp =>
        simp only [Client.Get]
        split <;> rfl
      | never => simp [Client.Get, hc]
    · intro b
      cases b with
      | data t bytes =>
        simp only [Client.ReadAll]
        split <;> rfl
      | fails err => rfl
      | stalls => simp [Client.ReadAll, hc]

end Poster


namespace Lambda

open Poster

theorem newEvents_self (s : State) : newEvents s s = [] := by
  simp [newEvents]

/-- C9. The handler validates before it calls `Generate`.  A body that
`json.Unmarshal` rejects gives status 400 with the error 'invalid request
body'; else an empty name gives 400 with 'name is required'; else an empty
avatar URL gives 400 with 'avatarUrl is required'; in these three cases no
call is made at all.  Otherwise the handler calls `Generate` with the name
and the URL of the request: on a nil error it answers 200 with the image in
the body, on an error it logs and answers 500, and it does not return when
`Generate` does not.  So a call of `Generate` in a run of the handler implies
a body that parsed, with a non-empty name and a non-empty URL. -/
theorem handler_validates_input (env : Env) (js : Json) (generator : Generator)
    (event : APIGatewayProxyRequest) (s : State) :
    (∀ e, js.Unmarshal event.Body = Except.error e →
      handler env js generator event s =
        Exec.returned
          (({ StatusCode := 400, Headers := [("Content-Type", "application/json")],
              Body := js.Marshal { Image := "", Error := "invalid request body" } }, none),
            s)) ∧
    (∀ req, js.Unmarshal event.Body = Except.ok req → req.Name = "" →
      handler env js generator event s =
        Exec.returned
          (({ StatusCode := 400, Headers := [("Content-Type", "application/json")],
              Body := js.Marshal { Image := "", Error := "name is required" } }, none),
            s)) ∧
    (∀ req, js.Unmarshal event.Body = Except.ok req → req.Name ≠ "" → req.AvatarURL = "" →
      handler env js generator event s =
        Exec.returned
          (({ StatusCode := 400, Headers := [("Content-Type", "application/json")],
              Body := js.Marshal { Image := "", Error := "avatarUrl is required" } }, none),
            s)) ∧
    (∀ req, js.Unmarshal event.Body = Except.ok req → req.Name ≠ "" → req.AvatarURL ≠ "" →
      (∀ img s1,
        Generate env generator req.Name req.AvatarURL s = Exec.returned ((img, none), s1) →
        handler env js generator event s =
          Exec.returned
            (({ StatusCode := 200, Headers := [("Content-Type", "application/json")],
                Body := js.Marshal { Image := img, Error := "" } }, none),
              s1)) ∧
      (∀ img err s1,
        Generate env generator req.Name req.AvatarURL s =
          Exec.returned ((img, some err), s1) →
        handler env js generator event s =
          Exec.returned
            (({ StatusCode := 500, Headers := [("Content-Type", "application/json")],
                Body := js.Marshal { Image := "", Error := "failed to generate poster" } },
              none),
              { heap := s1.heap, trace := s1.trace ++ [Event.logPrintf] })) ∧
      (Generate env generator req.Name req.AvatarURL s = Exec.panicked →
        handler env js generator event s = Exec.panicked) ∧
      (Generate env generator req.Name req.AvatarURL s = Exec.blocked →
        handler env js generator event s = Exec.blocked)) ∧
    (∀ r s1, handler env js generator event s = Exec.returned (r, s1) →
      (newEvents s s1).filterMap Event.generateCall ≠ [] →
      ∃ req, js.Unmarshal event.Body = Except.ok req ∧ req.Name ≠ "" ∧
        req.AvatarURL ≠ "") := by
  have h1 : ∀ e, js.Unmarshal event.Body = Except.error e →
      handler env js generator event s =
        Exec.returned
          (({ StatusCode := 400, Headers := [("Content-Type", "application/json")],
              Body := js.Marshal { Image := "", Error := "invalid request body" } }, none),
            s) := by
    intro e h
    simp [handler, errorResponse, h]
  have h2 : ∀ req, js.Unmarshal event.Body = Except.ok req → req.Name = "" →
      handler env js generator event s =
        Exec.returned
          (({ StatusCode := 400, Headers := [("Content-Type", "application/json")],
              Body := js.Marshal { Image := "", Error := "name is required" } }, none),
            s) := by
    intro req h hn
    simp [handler, errorResponse, h, hn]
  have h3 : ∀ req, js.Unmarshal event.Body = Except.ok req → req.Name ≠ "" →
      req.AvatarURL = "" →
      handler env js generator event s =
        Exec.returned
          (({ StatusCode := 400, Headers := [("Content-Type", "application/json")],
              Body := js.Marshal { Image := "", Error := "avatarUrl is required" } }, none),
            s) := by
    intro req h hn hu
    simp [handler, errorResponse, h, hn, hu]
  refine ⟨h1, h2, h3, ?_, ?_⟩
  · intro req h hn hu
    refine ⟨?_, ?_, ?_, ?_⟩
    · intro img s1 hg
      simp [handler, h, hn, hu, M.bind, hg]
    · intro img err s1 hg
      simp [handler, errorResponse, h, hn, hu, M.bind, hg, emit]
    · intro hg
      simp [handler, h, hn, hu, M.bind, hg]
    · intro hg
      simp [handler, h, hn, hu, M.bind, hg]
  · intro r s1 hrun hcall
    cases hj : js.Unmarshal event.Body with
    | error e =>
      rw [h1 e hj] at hrun
      simp only [Exec.returned.injEq, Prod.mk.injEq] at hrun
      rw [← hrun.2, newEvents_self] at hcall
      exact absurd rfl hcall
    | ok req =>
      by_cases hn : req.Name = ""
      · rw [h2 req hj hn] at hrun
        simp only [Exec.returned.injEq, Prod.mk.injEq] at hrun
        rw [← hrun.2, newEvents_self] at hcall
        exact absurd rfl hcall
      · by_cases hu : req.AvatarURL = ""
        · rw [h3 req hj hn hu] at hrun
          simp only [Exec.returned.injEq, Prod.mk.injEq] at hrun
          rw [← hrun.2, newEvents_self] at hcall
          exact absurd rfl hcall
        · exact ⟨req, rfl, hn, hu⟩

/-- A request with an empty name, in the toy JSON codec: status 400 with
'name is required', and the state is the one the handler started from. -/
theorem handler_validates_input_witness :
    handler exEnv exJson exGenerator ⟨"|https://example.com/ada.png"⟩ exState =
      Exec.returned
        (({ StatusCode := 400, Headers := [("Content-Type", "application/json")],
            Body := exJson.Marshal { Image := "", Error := "name is required" } }, none),
          exState) :=
  (handler_validates_input exEnv exJson exGenerator ⟨"|https://example.com/ada.png"⟩
    exState).2.1 ⟨"", "https://example.com/ada.png"⟩ rfl rfl

end Lambda
